import Mathlib

/-!
Verification of the UnMove batch rename/copy/move engine
(`src/app/api/files/rename/route.ts` and `src/lib/path-validator.ts`).

The development shallowly embeds the engine in Lean:

* paths are plain strings with "/" as separator (the engine runs on POSIX
  paths inside a container); Node `path` functions are modelled character
  by character so that all definitions are executable and kernel-reducible;
* the filesystem is a flat association list from absolute path to entry
  (file with content bytes and mode, or directory with mode); `fs.rename`
  on a directory moves the whole subtree of keys;
* external effects whose outcome the engine merely branches on (the path
  validator verdict, whether an `fs.rename` call throws, whether a
  streaming copy fails) are supplied as explicit oracle values, mirroring
  the fact that the engine never inspects anything but success/failure
  (and, for folder renames, the error code);
* wall-clock driven telemetry (the 100 ms progress throttle and the EWMA
  rate smoothing) is time-dependent and not modelled; no theorem below
  depends on the intermediate throttled events.
-/

namespace UnMove

/-! ## String and path primitives (Node `path`, POSIX flavour) -/

/-- Split a list of characters on a separator; the accumulator holds the
current segment reversed. Mirrors JavaScript `String.prototype.split`. -/
def splitCharsAux (sep : Char) : List Char → List Char → List (List Char)
  | [], acc => [acc.reverse]
  | c :: rest, acc =>
    if c = sep then acc.reverse :: splitCharsAux sep rest []
    else splitCharsAux sep rest (c :: acc)

/-- Split a string on a separator character (JS `s.split(sep)`). -/
def splitSep (sep : Char) (s : String) : List String :=
  (splitCharsAux sep s.data []).map (fun l => ⟨l⟩)

/-- Character count of a string (JS `s.length`; our strings are ASCII). -/
def strLen (s : String) : Nat := s.data.length

/-- Drop the first `n` characters (JS `s.slice(n)`). -/
def strDropChars (s : String) (n : Nat) : String := ⟨s.data.drop n⟩

/-- Keep the first `n` characters (JS `s.slice(0, n)`). -/
def strTakeChars (s : String) (n : Nat) : String := ⟨s.data.take n⟩

/-- Test whether `s` starts with `p` (JS `s.startsWith(p)`). -/
def strStartsWith (s p : String) : Bool := p.data.isPrefixOf s.data

/-- Test whether `s` ends with `p` (JS `s.endsWith(p)`). -/
def strEndsWith (s p : String) : Bool := p.data.isSuffixOf s.data

/-- Substring containment (JS `s.includes(sub)`). -/
def containsSubAux (sub : List Char) : List Char → Bool
  | [] => sub.isPrefixOf []
  | c :: rest => sub.isPrefixOf (c :: rest) || containsSubAux sub rest

/-- Substring containment (JS `s.includes(sub)`). -/
def containsSub (s sub : String) : Bool := containsSubAux sub.data s.data

/-- Lower-case a string character-wise (JS `s.toLowerCase()` on ASCII). -/
def strToLower (s : String) : String := ⟨s.data.map Char.toLower⟩

/-- Replace every backslash with a forward slash
(the route's `.replace(/\\/g, "/")` normalisation). -/
def replaceBackslashes (s : String) : String :=
  ⟨s.data.map (fun c => if c = '\\' then '/' else c)⟩

/-- Strip every leading slash (the route's `.replace(/^\/+/, "")`). -/
def stripLeadingSlashes (s : String) : String :=
  ⟨s.data.dropWhile (fun c => c = '/')⟩

/-- Last index of a character in a list, scanning left to right and keeping
the latest hit. -/
def lastIdxAux (c : Char) : List Char → Nat → Option Nat → Option Nat
  | [], _, best => best
  | x :: rest, i, best =>
    lastIdxAux c rest (i + 1) (if x = c then some i else best)

/-- Node `path.basename(p)`: the final path segment. -/
def pbasename (s : String) : String :=
  (splitSep '/' s).getLastD ""

/-- Node `path.dirname(p)`: everything before the final segment, `"."` when
there is no separator, `"/"` for a child of the root. -/
def pdirname (s : String) : String :=
  let parts := splitSep '/' s
  if parts.length ≤ 1 then "."
  else
    let d := String.intercalate "/" parts.dropLast
    if d = "" then "/" else d

/-- Node `path.extname(p)`: from the last dot of the final segment to the
end, empty when there is no dot or the dot leads the segment. -/
def pextname (s : String) : String :=
  let b := pbasename s
  match lastIdxAux '.' b.data 0 none with
  | none => ""
  | some 0 => ""
  | some i => ⟨b.data.drop i⟩

/-- Node `path.basename(p, ext)`: the final segment with a trailing `ext`
removed (unless the segment is exactly `ext`). -/
def pbasenameNoExt (s ext : String) : String :=
  let b := pbasename s
  if ext ≠ "" && ext ≠ b && strEndsWith b ext then
    strTakeChars b (strLen b - strLen ext)
  else b

/-- Node `path.join(a, b)` for the clean inputs the engine produces
(no trailing separators, no empty interior segments). -/
def pjoin (a b : String) : String :=
  if a = "" then b else if b = "" then a else a ++ "/" ++ b

/-- Node `path.resolve` on the engine's inputs: every path handed to it is
already an absolute normalised POSIX path, so resolution is the identity. -/
def presolve (s : String) : String := s

/-- JS `s.split("/").pop()` with the empty string when the array is empty
(it never is: `split` always yields at least one element). -/
def popSlash (s : String) : String := (splitSep '/' s).getLastD ""

/-- JS `s.split("/").pop() || fallback`: the last segment, or the fallback
when that segment is empty (empty strings are falsy). -/
def jsPopOr (s fallback : String) : String :=
  let last := popSlash s
  if last = "" then fallback else last

/-! ## Constants from the source -/

/-- Directory permission bits from `path-validator.ts` (`0o777`). -/
def DIR_MODE : Nat := 0o777

/-- File permission bits from `path-validator.ts` (`0o666`). -/
def FILE_MODE : Nat := 0o666

/-- Default mode of a file created by `createWriteStream` before the engine
re-applies `FILE_MODE` (Node default `0o666`). -/
def defaultWriteMode : Nat := 0o666

/-- Subtitle extension set from `route.ts`. -/
def SUBTITLE_EXTENSIONS : List String :=
  [".srt", ".ass", ".ssa", ".sub", ".idx", ".vtt", ".sup"]

/-- Video extension set from `route.ts`. -/
def VIDEO_EXTENSIONS : List String :=
  [".mkv", ".mp4", ".avi", ".mov", ".wmv", ".flv", ".webm",
   ".m4v", ".mpg", ".mpeg", ".ts", ".m2ts", ".vob"]

/-! ## Companion subtitle resolver -/

/-- One entry of a directory listing, as returned by
`fs.readdir(dir, withFileTypes)`. -/
structure DirEntry where
  name : String
  isFile : Bool
deriving DecidableEq, Repr

/-- Embedding of `findCompanionSubtitles`: keep sibling files whose
lower-cased extension is a subtitle extension and whose name, minus that
extension, equals the video's base name or extends it after a dot.
The directory listing is passed explicitly (the source obtains it from
`fs.readdir`); order is preserved as in the source's push loop. -/
def findCompanionSubtitles (videoAbsolutePath : String)
    (entries : List DirEntry) : List String :=
  let videoDir := pdirname videoAbsolutePath
  let videoExt := pextname videoAbsolutePath
  let videoBaseName := pbasenameNoExt videoAbsolutePath videoExt
  entries.filterMap (fun entry =>
    if !entry.isFile then none
    else
      let entryExt := strToLower (pextname entry.name)
      if !(SUBTITLE_EXTENSIONS.contains entryExt) then none
      else
        let nameWithoutSubExt :=
          strTakeChars entry.name (strLen entry.name - strLen entryExt)
        if nameWithoutSubExt = videoBaseName ||
            strStartsWith nameWithoutSubExt (videoBaseName ++ ".") then
          some (pjoin videoDir entry.name)
        else none)

/-- Embedding of `computeNewSubtitlePath`: rebuild the subtitle name as
new video base + suffix + subtitle extension, in the new video's
directory. -/
def computeNewSubtitlePath (subtitleAbsPath oldVideoAbsPath
    newVideoAbsPath : String) : String :=
  let oldVideoExt := pextname oldVideoAbsPath
  let oldVideoBase := pbasenameNoExt oldVideoAbsPath oldVideoExt
  let newVideoExt := pextname newVideoAbsPath
  let newVideoBase := pbasenameNoExt newVideoAbsPath newVideoExt
  let newVideoDir := pdirname newVideoAbsPath
  let subtitleName := pbasename subtitleAbsPath
  let subtitleExt := pextname subtitleName
  let subtitleWithoutExt :=
    strTakeChars subtitleName (strLen subtitleName - strLen subtitleExt)
  let suffix :=
    if strLen subtitleWithoutExt > strLen oldVideoBase then
      strDropChars subtitleWithoutExt (strLen oldVideoBase)
    else ""
  pjoin newVideoDir (newVideoBase ++ suffix ++ subtitleExt)


/-! ## Filesystem model

A flat association list from absolute path to entry. `fs.rename` of a
directory relocates the whole subtree of keys; recursive `fs.rm` removes
the subtree. Ownership (`chown`) is not modelled; `chmod` is the mode
field. -/

/-- Filesystem entry: a regular file (content bytes, permission mode) or a
directory (permission mode). -/
inductive FsEntry
  | file (content : List Nat) (mode : Nat)
  | dir (mode : Nat)
deriving DecidableEq, Repr

/-- Flat filesystem: association list from absolute path to entry. -/
abbrev FS := List (String × FsEntry)

/-- Look up the entry at a path (first match wins). -/
def fsLookup : FS → String → Option FsEntry
  | [], _ => none
  | kv :: rest, p => if kv.1 = p then some kv.2 else fsLookup rest p

/-- Whether a path exists (`fs.access` succeeding). -/
def fsExists (fs : FS) (p : String) : Bool := (fsLookup fs p).isSome

/-- Remove the entry at exactly this path (`fs.unlink`). -/
def fsErase : FS → String → FS
  | [], _ => []
  | kv :: rest, p => if kv.1 = p then fsErase rest p else kv :: fsErase rest p

/-- Insert or replace the entry at a path. -/
def fsInsert (fs : FS) (p : String) (e : FsEntry) : FS := (p, e) :: fsErase fs p

/-- Whether `k` lies at or below `root`. -/
def underTree (root k : String) : Bool :=
  k = root || strStartsWith k (root ++ "/")

/-- Remove a whole subtree (`fs.rm` with `recursive: true, force: true`). -/
def fsEraseTree : FS → String → FS
  | [], _ => []
  | kv :: rest, p =>
    if underTree p kv.1 then fsEraseTree rest p else kv :: fsEraseTree rest p

/-- Relocate one key under a rename of `src` to `dst`. -/
def renameKey (src dst k : String) : String :=
  if k = src then dst
  else if strStartsWith k (src ++ "/") then dst ++ strDropChars k (strLen src)
  else k

/-- Relocate an entry and, for a directory, its whole subtree
(`fs.rename`). -/
def fsRenameTree : FS → String → String → FS
  | [], _, _ => []
  | kv :: rest, src, dst =>
    (renameKey src dst kv.1, kv.2) :: fsRenameTree rest src dst

/-- Replace the permission mode of an entry. -/
def setEntryMode : FsEntry → Nat → FsEntry
  | .file c _, m => .file c m
  | .dir _, m => .dir m

/-- Set the mode of the entry at a path (`fs.chmod`); missing paths are
left alone (the engine's permission helpers swallow errors). -/
def fsSetMode : FS → String → Nat → FS
  | [], _, _ => []
  | kv :: rest, p, m =>
    (if kv.1 = p then (kv.1, setEntryMode kv.2 m) else kv) :: fsSetMode rest p m

/-- Embedding of `setFilePermissions`: chmod to `FILE_MODE` (the chown
half acts on ownership, which the model does not track). -/
def setFilePermissions (fs : FS) (p : String) : FS := fsSetMode fs p FILE_MODE

/-- Embedding of `setDirectoryPermissions`: chmod to `DIR_MODE`. -/
def setDirectoryPermissions (fs : FS) (p : String) : FS := fsSetMode fs p DIR_MODE

/-- Size reported by `fs.stat`: byte length for a file; a directory's
stat size is filesystem defined and modelled as 0 (no claim depends
on it). -/
def entrySize : FsEntry → Nat
  | .file c _ => c.length
  | .dir _ => 0

/-- Whether the stat result is a directory. -/
def entryIsDir : FsEntry → Bool
  | .file _ _ => false
  | .dir _ => true

/-- Node `path.relative(base, target)` for the engine's uses: empty when
equal, the suffix when `target` is under `base`, and a path leading with
`..` otherwise. -/
def pathRelative (base target : String) : String :=
  if target = base then ""
  else if strStartsWith target (base ++ "/") then
    strDropChars target (strLen base + 1)
  else ".."

/-- One iteration of the `mkdirWithPermissions` loop: `fs.mkdir` with mode
`DIR_MODE`, and on success or `EEXIST` alike, `setDirectoryPermissions`. -/
def mkdirStep (fs : FS) (p : String) : FS :=
  match fsLookup fs p with
  | some _ => setDirectoryPermissions fs p
  | none => setDirectoryPermissions (fsInsert fs p (.dir DIR_MODE)) p

/-- Walk of `mkdirWithPermissions` over the relative-path segments,
accumulating `currentPath` from the base. -/
def mkdirWalk : FS → String → List String → FS
  | fs, _, [] => fs
  | fs, cur, part :: rest =>
    let next := pjoin cur part
    mkdirWalk (mkdirStep fs next) next rest

/-- Paths the walk touches, for frame lemmas. -/
def mkdirWalkTouched : String → List String → List String
  | _, [] => []
  | cur, part :: rest =>
    let next := pjoin cur part
    next :: mkdirWalkTouched next rest

/-- Embedding of `mkdirWithPermissions`: when the target is at or above
the base, one recursive create-if-missing call; otherwise create every
segment from the base down, fixing permissions on each. -/
def mkdirWithPermissions (dirPath baseDir : String) (fs : FS) : FS :=
  let rel := pathRelative dirPath baseDir
  if rel = "" || strStartsWith rel ".." then mkdirStep fs dirPath
  else mkdirWalk fs baseDir (splitSep '/' rel)

/-- Paths `mkdirWithPermissions` touches. -/
def mkdirTouched (dirPath baseDir : String) : List String :=
  let rel := pathRelative dirPath baseDir
  if rel = "" || strStartsWith rel ".." then [dirPath]
  else mkdirWalkTouched baseDir (splitSep '/' rel)

/-! ## Folder rename retry (Phase C, lines 1186-1212 of the route) -/

/-- Outcome of one `fs.rename` attempt on a folder: success, or a thrown
error carrying its `code`. -/
inductive RenameOutcome
  | success
  | failure (code : String)
deriving DecidableEq, Repr

/-- Retry bound from the source (`maxRetries = 3`). -/
def maxRetries : Nat := 3

/-- Fixed backoff between retries from the source (`retryDelay = 500` ms);
wall-clock waiting itself is not modelled. -/
def retryDelayMs : Nat := 500

/-- Result of the retry loop: which attempt succeeded, or which attempt's
error escaped the loop and with what code. -/
inductive RetryResult
  | success (attemptsUsed : Nat)
  | thrown (attemptsUsed : Nat) (code : String)
deriving DecidableEq, Repr

/-- Number of attempts consumed. -/
def RetryResult.attemptsUsed : RetryResult → Nat
  | .success n => n
  | .thrown n _ => n

/-- The retry loop: attempt numbers count up from 1; a failure is retried
only when its code is `EPERM` and further attempts remain, otherwise the
error is rethrown. The fuel argument equals the remaining iterations, so
the fuel-exhausted base case is unreachable from the top-level call. -/
def renameRetryGo (attemptResult : Nat → RenameOutcome) : Nat → Nat → RetryResult
  | _, 0 => .thrown 0 ""
  | attempt, fuel + 1 =>
    match attemptResult attempt with
    | .success => .success attempt
    | .failure code =>
      if code = "EPERM" ∧ attempt < maxRetries then
        renameRetryGo attemptResult (attempt + 1) fuel
      else .thrown attempt code

/-- Embedding of the `for (attempt = 1; attempt <= maxRetries; ...)`
retry loop around the folder `fs.rename`. -/
def folderRenameAttempt (attemptResult : Nat → RenameOutcome) : RetryResult :=
  renameRetryGo attemptResult 1 maxRetries

/-- Per-folder diagnostic recorded when the retry loop rethrows
(lines 1222-1227): the locked (`EPERM`) case is distinguished from the
generic failure case. -/
def folderRenameDiagnostic (oldPath newName code : String) : String :=
  if code = "EPERM" then
    "Folder \"" ++ oldPath ++ "\" is locked (close any programs using it)"
  else
    "Folder rename failed: " ++ oldPath ++ " → " ++ newName

/-! ## Phase C: folder renames (lines 1096-1232) -/

/-- One folder rename request. -/
structure FolderRename where
  oldPath : String
  newName : String
deriving DecidableEq, Repr

/-- JS `Map.set`: update the value at an existing key in place, else
append a fresh binding (insertion order is preserved, as iteration over a
JS `Map` follows it). -/
def assocSet : List (String × String) → String → String → List (String × String)
  | [], k, v => [(k, v)]
  | (k0, v0) :: rest, k, v =>
    if k0 = k then (k0, v) :: rest else (k0, v0) :: assocSet rest k v

/-- Rewrite a path through the accumulated rename map (lines 1111-1122):
every entry is applied in insertion order, replacing a renamed ancestor
prefix or an exact match. -/
def applyRenamedPaths (renamedPaths : List (String × String)) (p : String) : String :=
  renamedPaths.foldl (fun cur kv =>
    if strStartsWith cur (kv.1 ++ "/") then kv.2 ++ strDropChars cur (strLen kv.1)
    else if cur = kv.1 then kv.2
    else cur) p

/-- Path sanitisation shared by the copy/move destination (lines 450-455)
and Phase C (lines 1125-1130): normalise backslashes, strip leading
slashes, drop `..`, `.` and empty segments. -/
def sanitizeRelPath (s : String) : String :=
  String.intercalate "/"
    ((splitSep '/' (stripLeadingSlashes (replaceBackslashes s))).filter
      (fun part => part ≠ ".." && part ≠ "." && part ≠ ""))

/-- The line 1216 replacement of the trailing run of non-slash characters
by `newName` (a `replace` with an end-anchored regular expression);
strings ending in a slash, and the empty string, have no match and are
returned unchanged. -/
def replaceLastComponent (s newName : String) : String :=
  if s = "" then s
  else if strEndsWith s "/" then s
  else String.intercalate "/" ((splitSep '/' s).dropLast ++ [newName])

/-- State threaded through Phase C. -/
structure PhaseCState where
  fs : FS
  renamedPaths : List (String × String)
  folderRenameErrors : List String
deriving DecidableEq, Repr

/-- Processing of one folder rename (lines 1107-1228): rewrite the path
through earlier renames, sanitise, security-check, require an existing
directory, skip when already named or when the destination exists, then
attempt the rename with the retry loop; a rethrown error is recorded as a
per-folder diagnostic and the loop moves on. -/
def phaseCStep (sourceBase : String) (attemptResult : Nat → RenameOutcome)
    (st : PhaseCState) (folderRename : FolderRename) : PhaseCState :=
  let currentOldPath := applyRenamedPaths st.renamedPaths folderRename.oldPath
  let sanitizedPath := sanitizeRelPath currentOldPath
  let folderFull := pjoin sourceBase sanitizedPath
  let normalizedFolder := presolve folderFull
  let normalizedBase := presolve sourceBase
  if !(strStartsWith normalizedFolder (normalizedBase ++ "/") ||
      normalizedFolder = normalizedBase) then st
  else
    match fsLookup st.fs folderFull with
    | some (.dir _) =>
      let parentDir := pdirname folderFull
      let newFolderFull := pjoin parentDir folderRename.newName
      if pbasename folderFull = folderRename.newName then st
      else if fsExists st.fs newFolderFull then st
      else
        match folderRenameAttempt attemptResult with
        | .success _ =>
          let fs1 := setDirectoryPermissions
            (fsRenameTree st.fs folderFull newFolderFull) newFolderFull
          let newPath := replaceLastComponent sanitizedPath folderRename.newName
          { st with
              fs := fs1
              renamedPaths := assocSet st.renamedPaths sanitizedPath newPath }
        | .thrown _ code =>
          { st with folderRenameErrors := st.folderRenameErrors ++
              [folderRenameDiagnostic folderRename.oldPath folderRename.newName code] }
    | _ => st

/-- Phase C loop; the oracle is indexed by the folder's position so each
folder's rename attempts can fail independently. -/
def phaseCGo (sourceBase : String) (attemptResult : Nat → Nat → RenameOutcome) :
    Nat → PhaseCState → List FolderRename → PhaseCState
  | _, st, [] => st
  | idx, st, fr :: rest =>
    phaseCGo sourceBase attemptResult (idx + 1)
      (phaseCStep sourceBase (attemptResult idx) st fr) rest

/-- Embedding of the Phase C block. -/
def phaseC (sourceBase : String) (attemptResult : Nat → Nat → RenameOutcome)
    (folderRenames : List FolderRename) (fs : FS) : PhaseCState :=
  phaseCGo sourceBase attemptResult 0
    { fs := fs, renamedPaths := [], folderRenameErrors := [] } folderRenames

/-! ## Batch orchestrator: request shapes, events, per-item step
(lines 325-766 of the route)

External outcomes the engine only branches on are oracle fields of
`ItemEnv`: the path-validator verdict, whether the main `fs.rename` call
throws (the engine ignores which error), whether the streaming copy
raises, and whether a companion subtitle rename throws. Timing-driven
telemetry (throttled `file_progress` events of the streaming copies and
their EWMA rate) is omitted; the deterministic instant-completion events
are modelled. -/

/-- One transfer item. -/
structure FileRename where
  sourcePath : String
  destinationPath : String
deriving DecidableEq, Repr

/-- The operation tag. -/
inductive Operation
  | copy | move | rename
deriving DecidableEq, Repr

/-- Per-job context: the operation, overwrite flag, and the two resolved
base directories (`sourceBase` is the pane-selected base for rename and
the downloads base otherwise; `mediaBase` is the media base). -/
structure JobCtx where
  operation : Operation
  overwrite : Bool
  sourceBase : String
  mediaBase : String
deriving Repr

/-- Oracle outcomes of the external calls made while processing one item. -/
structure ItemEnv where
  validateResult : Option String
  renameErr : Option String
  copyFails : Bool
  subRenameFails : String → Bool

/-- Progress event (the `ProgressUpdate` interface); absent optional
fields are `none`. -/
structure ProgressUpdate where
  type : String
  current : Nat
  total : Nat
  currentFile : Option String := none
  completed : Nat
  failed : Nat
  errors : List String
  message : Option String := none
  bytesCopied : Option Nat := none
  bytesTotal : Option Nat := none
  bytesPerSecond : Option Nat := none
deriving DecidableEq, Repr

/-- Which of the two per-item counters the item increments; every control
path of the loop body ends in exactly one of the two. -/
inductive ItemOutcome
  | completedItem | failedItem
deriving DecidableEq, Repr

/-- Mutable state of the item loop. -/
structure LoopState where
  fs : FS
  createdDirs : List String
  completed : Nat
  failed : Nat
  errors : List String
  events : List ProgressUpdate
deriving DecidableEq, Repr

/-- Result of one item's body: the outcome, the state it leaves behind,
the error strings it appended, the events it emitted inside the `try`
block, and whether control reached the post-transfer tail (lines 737-759)
rather than leaving early via `continue` or an exception. -/
structure ItemStep where
  outcome : ItemOutcome
  fs : FS
  createdDirs : List String
  newErrors : List String
  events : List ProgressUpdate
  finishedBody : Bool
deriving DecidableEq, Repr

/-- The instant-completion `file_progress` event (full byte counters,
zero rate) emitted by the same-path short-circuits and the successful
atomic renames. -/
def instantProgress (i total : Nat) (currentFileName : String)
    (st : LoopState) (fileSize : Nat) : ProgressUpdate :=
  { type := "file_progress"
    current := i + 1
    total := total
    currentFile := some currentFileName
    completed := st.completed
    failed := st.failed
    errors := st.errors
    bytesCopied := some fileSize
    bytesTotal := some fileSize
    bytesPerSecond := some 0 }

/-- Destination computation result (lines 418-474). -/
inductive DestResult
  | ok (destFull destBase : String)
  | invalid (msg : String)
deriving DecidableEq, Repr

/-- Destination computation: for rename, the source's directory plus the
sanitised bare filename with a traversal check; for copy/move, the
sanitised relative path joined under the media base; both re-validated to
lie inside their base. -/
def computeDest (ctx : JobCtx) (file : FileRename) (sourceFull : String) :
    DestResult :=
  match ctx.operation with
  | .rename =>
    let newFileName :=
      jsPopOr (replaceBackslashes file.destinationPath) file.destinationPath
    if newFileName = "" || containsSub newFileName ".." then
      .invalid ("Invalid filename: " ++ file.destinationPath)
    else
      let destFull := pjoin (pdirname sourceFull) newFileName
      if !(strStartsWith (presolve destFull) (presolve ctx.sourceBase ++ "/") ||
          presolve destFull = presolve ctx.sourceBase) then
        .invalid ("Invalid path: " ++ file.destinationPath)
      else .ok destFull ctx.sourceBase
  | _ =>
    let sanitizedDest := sanitizeRelPath file.destinationPath
    if sanitizedDest = "" then
      .invalid ("Invalid destination: " ++ file.destinationPath)
    else
      let destFull := pjoin ctx.mediaBase sanitizedDest
      if !(strStartsWith (presolve destFull) (presolve ctx.mediaBase ++ "/") ||
          presolve destFull = presolve ctx.mediaBase) then
        .invalid ("Invalid path: " ++ file.destinationPath)
      else .ok destFull ctx.mediaBase

/-- Files strictly below a root: relative path and content of every file
entry under it (the flat-model counterpart of `getDirectoryFiles`; the
engine reads this listing fully before copying). -/
def filesUnder (fs : FS) (root : String) : List (String × List Nat) :=
  fs.filterMap (fun kv =>
    match kv.2 with
    | .file c _ =>
      if strStartsWith kv.1 (root ++ "/") then
        some (strDropChars kv.1 (strLen root + 1), c)
      else none
    | .dir _ => none)

/-- Copy of one enumerated file of a directory tree (the loop body of
lines 191-209): create the destination file's parent chain under the
media base, stream the bytes (a fresh file carries the default write
mode), then fix the file's permissions. -/
def copyFileStep (destDir mediaBase : String) (acc : FS)
    (rc : String × List Nat) : FS :=
  setFilePermissions
    (fsInsert (mkdirWithPermissions (pdirname (pjoin destDir rc.1)) mediaBase acc)
      (pjoin destDir rc.1) (FsEntry.file rc.2 defaultWriteMode))
    (pjoin destDir rc.1)

/-- Embedding of `copyDirectoryWithProgress`: the file listing is read
fully up front, the destination root is created under the media base, and
every file is copied via `copyFileStep`; only files are enumerated, so an
empty source subdirectory contributes nothing beyond the destination
root. -/
def copyDirectoryWithProgress (fs : FS) (sourceDir destDir mediaBase : String) :
    FS :=
  (filesUnder fs sourceDir).foldl (copyFileStep destDir mediaBase)
    (mkdirWithPermissions destDir mediaBase fs)

/-- The copy-fallback block (lines 609-735): remove a stale destination
when overwriting (unless a move already did), stream-copy the directory
tree or the single file, and for a move delete the source afterwards
(recursive remove for a directory, unlink for a file). A raised copy error
escapes to the per-item handler. -/
def fallbackCopy (ctx : JobCtx) (file : FileRename) (env : ItemEnv)
    (sourceFull destFull : String) (sourceEntry : FsEntry)
    (fsIn : FS) (dirs1 : List String) : ItemStep :=
  let fs2 := if ctx.overwrite && ctx.operation ≠ Operation.move then
    fsEraseTree fsIn destFull else fsIn
  if env.copyFails then
    { outcome := .failedItem, fs := fs2, createdDirs := dirs1
      newErrors := ["Failed: " ++ jsPopOr file.sourcePath "file"]
      events := [], finishedBody := false }
  else
    match sourceEntry with
    | .dir _ =>
      let fs3 := copyDirectoryWithProgress fs2 sourceFull destFull ctx.mediaBase
      let fs4 := if ctx.operation = Operation.move then fsEraseTree fs3 sourceFull
        else fs3
      { outcome := .completedItem, fs := fs4, createdDirs := dirs1
        newErrors := [], events := [], finishedBody := true }
    | .file content _ =>
      let fs3 := fsInsert fs2 destFull (.file content defaultWriteMode)
      let fs4 := if ctx.operation = Operation.move then fsErase fs3 sourceFull
        else fs3
      { outcome := .completedItem, fs := fs4, createdDirs := dirs1
        newErrors := [], events := [], finishedBody := true }

/-- Operation dispatch (lines 499-735): rename and move share the
same-path instant short-circuit and the overwrite removal; rename throws
to the per-item handler on failure, move falls back to copy+delete on any
rename failure whatsoever, copy always takes the streaming path. -/
def dispatchOperation (ctx : JobCtx) (i total : Nat) (file : FileRename)
    (env : ItemEnv) (st : LoopState) (sourceFull destFull : String)
    (sourceEntry : FsEntry) (fs1 : FS) (dirs1 : List String) : ItemStep :=
  let currentFileName := jsPopOr file.destinationPath file.sourcePath
  let fileSize := entrySize sourceEntry
  let isDirectory := entryIsDir sourceEntry
  match ctx.operation with
  | .rename =>
    if sourceFull = destFull then
      { outcome := .completedItem, fs := fs1, createdDirs := dirs1
        newErrors := []
        events := [instantProgress i total currentFileName st fileSize]
        finishedBody := false }
    else
      let fs2 := if ctx.overwrite then fsEraseTree fs1 destFull else fs1
      match env.renameErr with
      | some _ =>
        { outcome := .failedItem, fs := fs2, createdDirs := dirs1
          newErrors := ["Failed: " ++ jsPopOr file.sourcePath "file"]
          events := [], finishedBody := false }
      | none =>
        { outcome := .completedItem
          fs := fsRenameTree fs2 sourceFull destFull
          createdDirs := dirs1, newErrors := []
          events := [instantProgress i total currentFileName st fileSize]
          finishedBody := false }
  | .move =>
    if sourceFull = destFull then
      { outcome := .completedItem, fs := fs1, createdDirs := dirs1
        newErrors := []
        events := [instantProgress i total currentFileName st fileSize]
        finishedBody := false }
    else
      let fs2 := if ctx.overwrite then fsEraseTree fs1 destFull else fs1
      match env.renameErr with
      | none =>
        let fs3 := fsRenameTree fs2 sourceFull destFull
        let fs4 := if isDirectory then setDirectoryPermissions fs3 destFull
          else setFilePermissions fs3 destFull
        { outcome := .completedItem, fs := fs4, createdDirs := dirs1
          newErrors := []
          events := [instantProgress i total currentFileName st fileSize]
          finishedBody := true }
      | some _ =>
        fallbackCopy ctx file env sourceFull destFull sourceEntry fs2 dirs1
  | .copy =>
    fallbackCopy ctx file env sourceFull destFull sourceEntry fs1 dirs1

/-- Lines 499-741: the operation dispatch followed by the final
`setFilePermissions` on a non-directory destination (lines 737-741),
which runs on every path that did not leave the body early. -/
def itemBody (ctx : JobCtx) (i total : Nat) (file : FileRename)
    (env : ItemEnv) (st : LoopState) (sourceFull destFull : String)
    (sourceEntry : FsEntry) (fs1 : FS) (dirs1 : List String) : ItemStep :=
  let step := dispatchOperation ctx i total file env st sourceFull destFull
    sourceEntry fs1 dirs1
  if step.finishedBody && !(entryIsDir sourceEntry) then
    { step with fs := setFilePermissions step.fs destFull }
  else step

/-- Listing of the entries whose parent is `dir`, as `fs.readdir` with
file types would return them in the flat model. -/
def entryIsFile : FsEntry → Bool
  | .file _ _ => true
  | .dir _ => false

/-- Listing of the entries whose parent is `dir` (the flat-model
counterpart of `fs.readdir(dir, withFileTypes)`). -/
def dirEntriesOf (fs : FS) (dir : String) : List DirEntry :=
  fs.filterMap (fun kv =>
    if pdirname kv.1 = dir then
      some { name := pbasename kv.1, isFile := entryIsFile kv.2 }
    else none)

/-- The companion operation itself (lines 303-316): rename throws to the
per-companion handler on oracle failure; move falls back to
copy-then-unlink; copy just copies. Error message text stands in for the
runtime `err.message`. -/
def performCompanionOp (operation : Operation)
    (subRenameFails : String → Bool) (fs : FS) (dirs errs : List String)
    (subPath newSubPath : String) : FS × List String × List String :=
  match operation with
  | .rename =>
    if subRenameFails subPath then
      (fs, dirs, errs ++ ["Subtitle failed: " ++ pbasename subPath ++ " - error"])
    else (setFilePermissions (fsRenameTree fs subPath newSubPath) newSubPath,
      dirs, errs)
  | .move =>
    if subRenameFails subPath then
      match fsLookup fs subPath with
      | some (.file c _) =>
        (setFilePermissions
          (fsErase (fsInsert fs newSubPath (.file c defaultWriteMode)) subPath)
          newSubPath, dirs, errs)
      | _ =>
        (fs, dirs, errs ++ ["Subtitle failed: " ++ pbasename subPath ++ " - error"])
    else (setFilePermissions (fsRenameTree fs subPath newSubPath) newSubPath,
      dirs, errs)
  | .copy =>
    match fsLookup fs subPath with
    | some (.file c _) =>
      (setFilePermissions (fsInsert fs newSubPath (.file c defaultWriteMode))
        newSubPath, dirs, errs)
    | _ =>
      (fs, dirs, errs ++ ["Subtitle failed: " ++ pbasename subPath ++ " - error"])

/-- One companion subtitle (lines 280-320): skip when the computed path is
unchanged, create the destination directory for copy/move (memoised),
silently skip an existing destination unless overwriting (an existing
directory there makes the forced, non-recursive remove throw), then apply
the operation; every failure becomes a collected string. -/
def companionStep (operation : Operation) (overwrite : Bool)
    (destBase : String) (subRenameFails : String → Bool)
    (oldVideoAbsPath newVideoAbsPath : String)
    (acc : FS × List String × List String) (subPath : String) :
    FS × List String × List String :=
  let fs := acc.1
  let createdDirs := acc.2.1
  let errs := acc.2.2
  let newSubPath := computeNewSubtitlePath subPath oldVideoAbsPath newVideoAbsPath
  if presolve subPath = presolve newSubPath then acc
  else
    let step1 : FS × List String :=
      if operation ≠ Operation.rename then
        let destDir := pdirname newSubPath
        if createdDirs.contains destDir then (fs, createdDirs)
        else (mkdirWithPermissions destDir destBase fs, createdDirs ++ [destDir])
      else (fs, createdDirs)
    let fs1 := step1.1
    let dirs1 := step1.2
    match fsLookup fs1 newSubPath with
    | some (.dir _) =>
      if !overwrite then (fs1, dirs1, errs)
      else (fs1, dirs1,
        errs ++ ["Subtitle failed: " ++ pbasename subPath ++ " - error"])
    | some (.file _ _) =>
      if !overwrite then (fs1, dirs1, errs)
      else performCompanionOp operation subRenameFails (fsErase fs1 newSubPath)
        dirs1 errs subPath newSubPath
    | none =>
      performCompanionOp operation subRenameFails fs1 dirs1 errs subPath newSubPath

/-- Embedding of `processCompanionSubtitles`: fold over the discovered
companions, threading the filesystem and the created-directories cache and
collecting per-companion error strings. -/
def processCompanionSubtitles (companionPaths : List String)
    (oldVideoAbsPath newVideoAbsPath : String) (operation : Operation)
    (overwrite : Bool) (destBase : String) (subRenameFails : String → Bool)
    (fs : FS) (createdDirs : List String) : FS × List String × List String :=
  companionPaths.foldl
    (companionStep operation overwrite destBase subRenameFails
      oldVideoAbsPath newVideoAbsPath)
    (fs, createdDirs, [])

/-- The per-item destination-directory creation (lines 476-484): for
copy/move, materialise the destination's parent under the destination
base unless already memoised; rename stays in place. -/
def itemMkdirPhase (ctx : JobCtx) (destFull destBase : String) (fs : FS)
    (createdDirs : List String) : FS × List String :=
  if ctx.operation ≠ Operation.rename then
    let destDir := pdirname destFull
    if createdDirs.contains destDir then (fs, createdDirs)
    else (mkdirWithPermissions destDir destBase fs, createdDirs ++ [destDir])
  else (fs, createdDirs)

/-- The whole per-item `try` body (lines 399-765): source validation,
stat, companion discovery, destination computation, destination directory
creation, the destination-exists check, the operation dispatch, and the
companion relocation; any thrown error lands in the handler that counts
the item failed. -/
def processItemCore (ctx : JobCtx) (i total : Nat) (file : FileRename)
    (env : ItemEnv) (st : LoopState) : ItemStep :=
  match env.validateResult with
  | none =>
    { outcome := .failedItem, fs := st.fs, createdDirs := st.createdDirs
      newErrors := ["Invalid source: " ++ file.sourcePath]
      events := [], finishedBody := false }
  | some sourceFull =>
    match fsLookup st.fs sourceFull with
    | none =>
      { outcome := .failedItem, fs := st.fs, createdDirs := st.createdDirs
        newErrors := ["Failed: " ++ jsPopOr file.sourcePath "file"]
        events := [], finishedBody := false }
    | some sourceEntry =>
      let isVideoFile := !(entryIsDir sourceEntry) &&
        VIDEO_EXTENSIONS.contains (strToLower (pextname sourceFull))
      let companionSubtitles := if isVideoFile then
        findCompanionSubtitles sourceFull (dirEntriesOf st.fs (pdirname sourceFull))
        else []
      match computeDest ctx file sourceFull with
      | .invalid msg =>
        { outcome := .failedItem, fs := st.fs, createdDirs := st.createdDirs
          newErrors := [msg], events := [], finishedBody := false }
      | .ok destFull destBase =>
        let fsdirs : FS × List String :=
          itemMkdirPhase ctx destFull destBase st.fs st.createdDirs
        if fsExists fsdirs.1 destFull && !ctx.overwrite then
          { outcome := .failedItem, fs := fsdirs.1, createdDirs := fsdirs.2
            newErrors := ["Already exists: " ++ popSlash file.destinationPath]
            events := [], finishedBody := false }
        else
          let step := itemBody ctx i total file env st sourceFull destFull
            sourceEntry fsdirs.1 fsdirs.2
          if step.finishedBody && companionSubtitles ≠ [] then
            let r := processCompanionSubtitles companionSubtitles sourceFull
              destFull ctx.operation ctx.overwrite destBase env.subRenameFails
              step.fs step.createdDirs
            { step with
                fs := r.1
                createdDirs := r.2.1
                newErrors := step.newErrors ++ r.2.2 }
          else step

/-- The `progress` event emitted before each item (lines 389-397). -/
def progressEventFor (i total : Nat) (file : FileRename) (st : LoopState) :
    ProgressUpdate :=
  { type := "progress"
    current := i + 1
    total := total
    currentFile := some (jsPopOr file.destinationPath file.sourcePath)
    completed := st.completed
    failed := st.failed
    errors := st.errors }

/-- Fold one item's step back into the loop state: exactly one of the two
counters is incremented according to the outcome, the item's error
strings are appended, and the item's events follow its `progress` event. -/
def applyOutcome (st : LoopState) (step : ItemStep)
    (progressEvent : ProgressUpdate) : LoopState :=
  { fs := step.fs
    createdDirs := step.createdDirs
    completed := st.completed + (if step.outcome = ItemOutcome.completedItem then 1 else 0)
    failed := st.failed + (if step.outcome = ItemOutcome.failedItem then 1 else 0)
    errors := st.errors ++ step.newErrors
    events := st.events ++ [progressEvent] ++ step.events }

/-- One full iteration of the item loop. -/
def processItem (ctx : JobCtx) (i total : Nat) (file : FileRename)
    (env : ItemEnv) (st : LoopState) : LoopState :=
  applyOutcome st (processItemCore ctx i total file env st)
    (progressEventFor i total file st)

/-- The item loop (lines 385-766), with the per-item oracle indexed by
position. -/
def runLoopGo (ctx : JobCtx) (total : Nat) (envs : Nat → ItemEnv) :
    Nat → List FileRename → LoopState → LoopState
  | _, [], st => st
  | i, file :: rest, st =>
    runLoopGo ctx total envs (i + 1) rest
      (processItem ctx i total file (envs i) st)

/-- Fresh loop state over an initial filesystem. -/
def initialState (fs : FS) : LoopState :=
  { fs := fs, createdDirs := [], completed := 0, failed := 0
    errors := [], events := [] }

/-- Run the item loop from a fresh state. -/
def runLoop (ctx : JobCtx) (files : List FileRename) (envs : Nat → ItemEnv)
    (fs : FS) : LoopState :=
  runLoopGo ctx files.length envs 0 files (initialState fs)

/-- The terminal summary message (lines 1239-1248). -/
def completionMessage (failed folderErrCount : Nat) : String :=
  if failed + folderErrCount > 0 then
    if failed > 0 && folderErrCount > 0 then
      "Completed with " ++ toString failed ++ " file error(s) and " ++
        toString folderErrCount ++ " folder error(s)"
    else if folderErrCount > 0 then
      "Files processed, but " ++ toString folderErrCount ++
        " folder rename(s) failed"
    else "Completed with " ++ toString failed ++ " error(s)"
  else "All files processed successfully"

/-- The terminal `complete` event (lines 1234-1259): file errors plus
folder-rename errors, the failed counter combining both counts. -/
def completeEvent (total : Nat) (st : LoopState)
    (folderRenameErrors : List String) : ProgressUpdate :=
  { type := "complete"
    current := total
    total := total
    completed := st.completed
    failed := st.failed + folderRenameErrors.length
    errors := st.errors ++ folderRenameErrors
    message := some (completionMessage st.failed folderRenameErrors.length) }

/-! ## Phases A and B: folder creation (lines 771-1094)

Every error raised while moving a file in these phases is caught and
written to the console only (the `logged` field); nothing is appended to
the job's error lists. The `moves` field records every attempted
`fs.rename` of these phases as a source/destination pair, for auditing
the destination computation. -/

/-- One main-folder creation request. -/
structure FolderCreate where
  filePath : String
  newFileName : String
  folderName : String
  subfolderName : Option String
deriving DecidableEq, Repr

/-- One season-folder creation request. -/
structure SeasonFolderCreate where
  filePath : String
  newFileName : String
  seasonFolder : String
deriving DecidableEq, Repr

/-- Append an element to the group of its key, keeping first-seen key
order (a JS `Map` grouping loop). -/
def addToGroup {α : Type} : List (String × List α) → String → α →
    List (String × List α)
  | [], k, c => [(k, [c])]
  | (k0, g) :: restG, k, c =>
    if k0 = k then (k0, g ++ [c]) :: restG
    else (k0, g) :: addToGroup restG k c

/-- Group a list by a string key, keeping first-seen key order. -/
def groupByKey {α : Type} (key : α → String) : List (String × List α) →
    List α → List (String × List α)
  | groups, [] => groups
  | groups, c :: rest => groupByKey key (addToGroup groups (key c) c) rest

/-- Grouping key of a main-folder creation (lines 781-784). -/
def folderCreateKey (c : FolderCreate) : String :=
  match c.subfolderName with
  | some sub => c.folderName ++ "/" ++ sub
  | none => c.folderName

/-- State threaded through Phases A and B. -/
structure PhaseABState where
  fs : FS
  logged : List String
  moves : List (String × String)
deriving DecidableEq, Repr

/-- Move one companion subtitle into the target folder (lines 898-907 and
1072-1081): destination is the folder joined with the subtitle's own
basename; a rename error is swallowed entirely. -/
def moveCompanionStep (renameFails : String → String → Bool)
    (targetFolderPath : String) (st : PhaseABState) (subPath : String) :
    PhaseABState :=
  let subDest := pjoin targetFolderPath (pbasename subPath)
  let st1 := { st with moves := st.moves ++ [(subPath, subDest)] }
  if renameFails subPath subDest then st1
  else { st1 with
    fs := setFilePermissions (fsRenameTree st1.fs subPath subDest) subDest }

/-- File location shared by Phase A (lines 846-878) and Phase B
(lines 1018-1052): compute the file's parent directory from its
pre-rename relative path, then find it under its post-rename name,
falling back to its original name. Returns the parent directory and the
located path. -/
def locateFileFor (fs : FS) (sourceBase filePath newFileName : String) :
    Option (String × String) :=
  let createNormalized := stripLeadingSlashes (replaceBackslashes filePath)
  let createParts := splitSep '/' createNormalized
  let originalFileName := createParts.getLastD ""
  let createDirPath := String.intercalate "/" createParts.dropLast
  let fileParentDir :=
    if createDirPath ≠ "" then pjoin sourceBase createDirPath else sourceBase
  let newFilePath := pjoin fileParentDir newFileName
  let originalFilePath := pjoin fileParentDir originalFileName
  if fsExists fs newFilePath then some (fileParentDir, newFilePath)
  else if fsExists fs originalFilePath then some (fileParentDir, originalFilePath)
  else none

/-- The move action on a located file (lines 880-908 and 1054-1081): skip
when already in the target folder; move it to the target folder joined
with its current basename; fix its permissions; then move its companion
subtitles the same way. A rename error is logged and the loop
continues. -/
def moveIntoFolderAct (renameFails : String → String → Bool)
    (logTag targetFolderPath : String) (st : PhaseABState)
    (fileParentDir currentFilePath : String) : PhaseABState :=
  let destFilePath := pjoin targetFolderPath (pbasename currentFilePath)
  if presolve fileParentDir = presolve targetFolderPath then st
  else
    let st1 := { st with moves := st.moves ++ [(currentFilePath, destFilePath)] }
    if renameFails currentFilePath destFilePath then
      { st1 with logged := st1.logged ++ [logTag ++ " ERROR moving file"] }
    else
      let fs2 := setFilePermissions
        (fsRenameTree st1.fs currentFilePath destFilePath) destFilePath
      let st2 := { st1 with fs := fs2 }
      if VIDEO_EXTENSIONS.contains (strToLower (pextname currentFilePath)) then
        let companions := findCompanionSubtitles currentFilePath
          (dirEntriesOf st2.fs (pdirname currentFilePath))
        companions.foldl (moveCompanionStep renameFails targetFolderPath) st2
      else st2

/-- Move one file into a created folder; this body is duplicated verbatim
between Phase A (lines 842-911) and Phase B (lines 1014-1087): locate,
then act; a file found at neither candidate path is skipped. -/
def moveIntoFolderStep (renameFails : String → String → Bool)
    (logTag sourceBase targetFolderPath : String) (st : PhaseABState)
    (filePath newFileName : String) : PhaseABState :=
  match locateFileFor st.fs sourceBase filePath newFileName with
  | none => st
  | some pc => moveIntoFolderAct renameFails logTag targetFolderPath st pc.1 pc.2

/-- The parent directory the first item of a group currently sits in
(lines 799-812 and 944-969 share this computation, minus Phase B's
season-folder adjustment). -/
def groupCurrentDir (sourceBase filePath : String) : String :=
  let normalizedFilePath := stripLeadingSlashes (replaceBackslashes filePath)
  let filePathParts := (splitSep '/' normalizedFilePath).dropLast
  let currentDirPath := String.intercalate "/" filePathParts
  if currentDirPath ≠ "" then pjoin sourceBase currentDirPath else sourceBase

/-- The Phase A target folder path (lines 814-818). -/
def phaseATarget (sourceBase : String) (firstCreate : FolderCreate) : String :=
  match firstCreate.subfolderName with
  | some sub =>
    pjoin (pjoin (groupCurrentDir sourceBase firstCreate.filePath)
      firstCreate.folderName) sub
  | none =>
    pjoin (groupCurrentDir sourceBase firstCreate.filePath)
      firstCreate.folderName

/-- Folder creation guarded by an existence probe (lines 830-838 and
999-1009). -/
def ensureFolder (fs : FS) (target base : String) : FS :=
  if fsExists fs target then fs else mkdirWithPermissions target base fs

/-- One Phase A folder group (lines 792-916): derive the current parent
directory from the first item's pre-rename path, build and security-check
the target folder path (plain prefix check, line 825), create it when
missing, then move every file of the group into it. -/
def phaseAGroupStep (renameFails : String → String → Bool)
    (sourceBase : String) (st : PhaseABState)
    (group : String × List FolderCreate) : PhaseABState :=
  match group.2 with
  | [] => st
  | firstCreate :: _ =>
    if !(strStartsWith (presolve (phaseATarget sourceBase firstCreate))
        (presolve sourceBase)) then st
    else
      group.2.foldl
        (fun acc c => moveIntoFolderStep renameFails "[FOLDER-CREATE]"
          sourceBase (phaseATarget sourceBase firstCreate)
          acc c.filePath c.newFileName)
        { st with fs := (ensureFolder st.fs
            (phaseATarget sourceBase firstCreate) sourceBase) }

/-- Embedding of Phase A (main folder creation, lines 771-918). -/
def phaseA (renameFails : String → String → Bool) (sourceBase : String)
    (folderCreates : List FolderCreate) (fs : FS) : PhaseABState :=
  (groupByKey folderCreateKey [] folderCreates).foldl
    (phaseAGroupStep renameFails sourceBase)
    { fs := fs, logged := [], moves := [] }

/-- JS `\s` on the characters that occur in folder names. -/
def isWhitespaceChar (c : Char) : Bool :=
  c = ' ' || c = '\t' || c = '\n' || c = '\r'

/-- Case-insensitive `"season"` prefix test. -/
def lowerSeasonAt (l : List Char) : Bool :=
  "season".data.isPrefixOf (l.map Char.toLower)

/-- After `"season"`: optional whitespace, then at least one digit
(the `\s*\d` tail of the regex; the 1-2 digit bound never changes the
verdict of `test`). -/
def seasonDigitTail (l : List Char) : Bool :=
  match l.dropWhile isWhitespaceChar with
  | c :: _ => c.isDigit
  | [] => false

/-- Searching form of `/Season\s*\d/i.test`. -/
def seasonSearch : List Char → Bool
  | [] => false
  | c :: rest =>
    (lowerSeasonAt (c :: rest) && seasonDigitTail ((c :: rest).drop 6)) ||
      seasonSearch rest

/-- The season-name test of line 958: a case-insensitive search for the
word season followed by optional whitespace and a digit. -/
def isSeasonDirName (s : String) : Bool := seasonSearch s.data

/-- The Phase B series directory (lines 944-981): the first item's
parent, stepping one level up when that parent is itself a season-named
folder. -/
def phaseBSeriesDir (sourceBase : String) (firstCreate : SeasonFolderCreate) :
    String :=
  let normalizedFilePath :=
    stripLeadingSlashes (replaceBackslashes firstCreate.filePath)
  let filePathParts0 := (splitSep '/' normalizedFilePath).dropLast
  let lastDirPart := filePathParts0.getLastD ""
  let isInsideSeasonFolder := lastDirPart ≠ "" && isSeasonDirName lastDirPart
  let filePathParts :=
    if isInsideSeasonFolder && filePathParts0.length > 1 then
      filePathParts0.dropLast
    else filePathParts0
  let dirRelativePath := String.intercalate "/" filePathParts
  if dirRelativePath ≠ "" then pjoin sourceBase dirRelativePath else sourceBase

/-- One Phase B season-folder group (lines 938-1092): derive the series
directory from the first item's pre-rename path; require it to exist as a
directory; create the season folder when missing; then move every file of
the group into it. -/
def phaseBGroupStep (renameFails : String → String → Bool)
    (sourceBase : String) (st : PhaseABState)
    (group : String × List SeasonFolderCreate) : PhaseABState :=
  match group.2 with
  | [] => st
  | firstCreate :: _ =>
    if !(strStartsWith (presolve (phaseBSeriesDir sourceBase firstCreate))
        (presolve sourceBase)) then st
    else
      match fsLookup st.fs (phaseBSeriesDir sourceBase firstCreate) with
      | some (.dir _) =>
        group.2.foldl
          (fun acc c => moveIntoFolderStep renameFails "[SEASON-FOLDER]"
            sourceBase
            (pjoin (phaseBSeriesDir sourceBase firstCreate) group.1)
            acc c.filePath c.newFileName)
          { st with fs := (ensureFolder st.fs
              (pjoin (phaseBSeriesDir sourceBase firstCreate) group.1)
              (phaseBSeriesDir sourceBase firstCreate)) }
      | _ => st

/-- Embedding of Phase B (season folder creation, lines 920-1094). -/
def phaseB (renameFails : String → String → Bool) (sourceBase : String)
    (seasonFolderCreates : List SeasonFolderCreate) (fs : FS) : PhaseABState :=
  (groupByKey SeasonFolderCreate.seasonFolder [] seasonFolderCreates).foldl
    (phaseBGroupStep renameFails sourceBase)
    { fs := fs, logged := [], moves := [] }

/-! ## The whole job (lines 325-1272) -/

/-- The batch request after input normalisation. -/
structure JobRequest where
  files : List FileRename
  operation : Operation
  overwrite : Bool
  folderRenames : List FolderRename
  folderCreates : List FolderCreate
  seasonFolderCreates : List SeasonFolderCreate

/-- Everything a finished job leaves behind: the post-loop state, the
three reorganizer phases' states, and the terminal `complete` event. -/
structure JobResult where
  itemsState : LoopState
  phaseAState : PhaseABState
  phaseBState : PhaseABState
  phaseCState : PhaseCState
  completeEv : ProgressUpdate

/-- Run the whole job: the item loop, then (for rename jobs with the
corresponding instructions) Phase A, Phase B and Phase C, then the
terminal event, whose failure count and error list merge the file errors
with the Phase C folder-rename errors only. -/
def runJob (req : JobRequest) (sourceBase mediaBase : String)
    (envs : Nat → ItemEnv) (renameFails : String → String → Bool)
    (attemptResult : Nat → Nat → RenameOutcome) (fs : FS) : JobResult :=
  let ctx : JobCtx :=
    { operation := req.operation, overwrite := req.overwrite
      sourceBase := sourceBase, mediaBase := mediaBase }
  let st := runLoop ctx req.files envs fs
  let stA := if req.operation = Operation.rename && req.folderCreates ≠ [] then
      phaseA renameFails sourceBase req.folderCreates st.fs
    else { fs := st.fs, logged := [], moves := [] }
  let stB :=
    if req.operation = Operation.rename && req.seasonFolderCreates ≠ [] then
      phaseB renameFails sourceBase req.seasonFolderCreates stA.fs
    else { fs := stA.fs, logged := [], moves := [] }
  let stC := if req.operation = Operation.rename && req.folderRenames ≠ [] then
      phaseC sourceBase attemptResult req.folderRenames stB.fs
    else { fs := stB.fs, renamedPaths := [], folderRenameErrors := [] }
  { itemsState := st
    phaseAState := stA
    phaseBState := stB
    phaseCState := stC
    completeEv := completeEvent req.files.length st stC.folderRenameErrors }

/-- Paths whose entries the per-item destination-directory creation
(lines 476-484) may touch, for frame lemmas: empty for rename or when the
directory is memoised, the `mkdirWithPermissions` chain otherwise. -/
def itemMkdirTouched (ctx : JobCtx) (destFull destBase : String)
    (createdDirs : List String) : List String :=
  if ctx.operation ≠ Operation.rename then
    let destDir := pdirname destFull
    if createdDirs.contains destDir then [] else mkdirTouched destDir destBase
  else []

/-- Shape of every move performed by the folder-creation phases: the
destination is some target folder joined with the moved path's own
basename (no suffix recomputation). -/
def intoFolderMove (mv : String × String) : Prop :=
  ∃ t c, mv = (c, pjoin t (pbasename c))

/-! ## Theorems -/

/-- C5: companion subtitle discovery matches a sibling whose
subtitle-stripped base name equals the video's base name or extends it
after a dot, and path recomputation preserves the suffix: for video
`Show.mkv` renamed to `Episode.mkv`, the sibling `Show.en.srt` is
discovered and relocated to `Episode.en.srt` in the video's new
directory, while `Other.srt` is not discovered and hence untouched. -/
theorem C5_companion_tracking :
    findCompanionSubtitles "/dl/Show.mkv"
      [⟨"Show.en.srt", true⟩, ⟨"Other.srt", true⟩] = ["/dl/Show.en.srt"] ∧
    computeNewSubtitlePath "/dl/Show.en.srt" "/dl/Show.mkv" "/media/Episode.mkv"
      = "/media/Episode.en.srt" ∧
    computeNewSubtitlePath "/dl/Show.srt" "/dl/Show.mkv" "/media/Episode.mkv"
      = "/media/Episode.srt" := by
  refine ⟨by decide, by decide, by decide⟩

/-- C10: companion discovery lower-cases the candidate's extension before
testing membership in the subtitle-extension set but compares base names
case-sensitively: for video `Show.mkv`, the sibling `Show.en.SRT` is
discovered while `show.en.srt` is not. -/
theorem C10_extension_case_insensitive_base_case_sensitive :
    findCompanionSubtitles "/dl/Show.mkv"
      [⟨"Show.en.SRT", true⟩, ⟨"show.en.srt", true⟩] = ["/dl/Show.en.SRT"] := by
  decide

/-- C4: Phase C rewrites each incoming path through the accumulated
rename map (prefix and exact matches); for the deepest-first list
`[(A/B, B2), (A, A2)]` with both renames succeeding, the directory ends
up at `A2/B2`, the old paths are gone, and the recorded mapping for
`A/B` composes with the later rename of `A` on subsequent lookups. -/
theorem C4_folder_rename_path_rewriting :
    fsLookup (phaseC "/media" (fun _ _ => RenameOutcome.success)
      [⟨"A/B", "B2"⟩, ⟨"A", "A2"⟩]
      [("/media", FsEntry.dir 493), ("/media/A", FsEntry.dir 493),
       ("/media/A/B", FsEntry.dir 493)]).fs "/media/A2/B2" =
      some (FsEntry.dir DIR_MODE) ∧
    fsLookup (phaseC "/media" (fun _ _ => RenameOutcome.success)
      [⟨"A/B", "B2"⟩, ⟨"A", "A2"⟩]
      [("/media", FsEntry.dir 493), ("/media/A", FsEntry.dir 493),
       ("/media/A/B", FsEntry.dir 493)]).fs "/media/A/B" = none ∧
    fsLookup (phaseC "/media" (fun _ _ => RenameOutcome.success)
      [⟨"A/B", "B2"⟩, ⟨"A", "A2"⟩]
      [("/media", FsEntry.dir 493), ("/media/A", FsEntry.dir 493),
       ("/media/A/B", FsEntry.dir 493)]).fs "/media/A" = none ∧
    (phaseC "/media" (fun _ _ => RenameOutcome.success)
      [⟨"A/B", "B2"⟩, ⟨"A", "A2"⟩]
      [("/media", FsEntry.dir 493), ("/media/A", FsEntry.dir 493),
       ("/media/A/B", FsEntry.dir 493)]).renamedPaths =
      [("A/B", "A/B2"), ("A", "A2")] ∧
    applyRenamedPaths (phaseC "/media" (fun _ _ => RenameOutcome.success)
      [⟨"A/B", "B2"⟩, ⟨"A", "A2"⟩]
      [("/media", FsEntry.dir 493), ("/media/A", FsEntry.dir 493),
       ("/media/A/B", FsEntry.dir 493)]).renamedPaths "A/B" = "A2/B2" ∧
    (phaseC "/media" (fun _ _ => RenameOutcome.success)
      [⟨"A/B", "B2"⟩, ⟨"A", "A2"⟩]
      [("/media", FsEntry.dir 493), ("/media/A", FsEntry.dir 493),
       ("/media/A/B", FsEntry.dir 493)]).folderRenameErrors = [] := by
  refine ⟨by decide, by decide, by decide, by decide, by decide, by decide⟩

/-- C2 (counterexample): a job whose Phase A file move fails (the
diagnostic is logged, so an error did arise in the Folder Reorganizer's
Phase A) still ends with an empty final error list and a zero failed
count, so not every Folder Reorganizer error is merged into the terminal
event. -/
theorem C2_counterexample :
    let J := runJob
      { files := [⟨"a.txt", "a.txt"⟩], operation := Operation.rename
        overwrite := true, folderRenames := [], seasonFolderCreates := []
        folderCreates := [⟨"dir/file.mkv", "file.mkv", "NewFolder", none⟩] }
      "/dl" "/media"
      (fun _ => { validateResult := some "/dl/a.txt", renameErr := none
                  copyFails := false, subRenameFails := fun _ => false })
      (fun _ _ => true)
      (fun _ _ => RenameOutcome.success)
      [("/dl", FsEntry.dir 511), ("/dl/a.txt", FsEntry.file [0] 438),
       ("/dl/dir", FsEntry.dir 511), ("/dl/dir/file.mkv", FsEntry.file [5] 438)]
    J.phaseAState.logged = ["[FOLDER-CREATE] ERROR moving file"] ∧
    J.phaseAState.moves = [("/dl/dir/file.mkv", "/dl/dir/NewFolder/file.mkv")] ∧
    J.completeEv.errors = [] ∧
    J.completeEv.failed = 0 := by
  refine ⟨by decide, by decide, by decide, by decide⟩

/-- C2 (amended): only Phase C folder-rename errors are merged into the
job's final error list and counted into the terminal `failed` field, on
top of the file errors; Phase A and Phase B errors are logged to the
console and discarded. -/
theorem C2_final_errors_merge_phaseC_only (req : JobRequest)
    (sourceBase mediaBase : String) (envs : Nat → ItemEnv)
    (renameFails : String → String → Bool)
    (attemptResult : Nat → Nat → RenameOutcome) (fs : FS) :
    let J := runJob req sourceBase mediaBase envs renameFails attemptResult fs
    J.completeEv.errors =
      J.itemsState.errors ++ J.phaseCState.folderRenameErrors ∧
    J.completeEv.failed =
      J.itemsState.failed + J.phaseCState.folderRenameErrors.length := by
  exact ⟨rfl, rfl⟩

/-- C1 (counterexample): for a rename item whose computed destination
equals its current path, with `overwrite = false`, the
destination-already-exists check fires before the same-path
short-circuit: the item is counted failed with an "Already exists"
diagnostic and no `file_progress` event is emitted, contradicting the
claim's "counts the item as completed ... for every value of the
overwrite flag". -/
theorem C1_counterexample :
    let step := processItemCore
      { operation := Operation.rename, overwrite := false
        sourceBase := "/dl", mediaBase := "/media" }
      0 1 ⟨"a.mkv", "a.mkv"⟩
      { validateResult := some "/dl/a.mkv", renameErr := none
        copyFails := false, subRenameFails := fun _ => false }
      (initialState [("/dl", FsEntry.dir 511), ("/dl/a.mkv", FsEntry.file [1, 2] 438)])
    step.outcome = ItemOutcome.failedItem ∧
    step.newErrors = ["Already exists: a.mkv"] ∧
    step.events = [] ∧
    step.fs = [("/dl", FsEntry.dir 511), ("/dl/a.mkv", FsEntry.file [1, 2] 438)] := by
  refine ⟨by decide, by decide, by decide, by decide⟩


/-- Lookup elsewhere is unaffected by an erase. -/
theorem fsLookup_fsErase_ne (fs : FS) (p q : String) (h : p ≠ q) :
    fsLookup (fsErase fs q) p = fsLookup fs p := by
  induction fs with
  | nil => rfl
  | cons kv rest ih =>
    by_cases hk : kv.1 = q
    · have hkp : ¬ kv.1 = p := fun he => h (he ▸ hk)
      simp [fsErase, fsLookup, hk, hkp, ih, Ne.symm h]
    · by_cases hp : kv.1 = p <;> simp [fsErase, fsLookup, hk, hp, ih, h]

/-- Erasing a path removes it. -/
theorem fsLookup_fsErase_self (fs : FS) (p : String) :
    fsLookup (fsErase fs p) p = none := by
  induction fs with
  | nil => rfl
  | cons kv rest ih =>
    by_cases hk : kv.1 = p <;> simp [fsErase, fsLookup, hk, ih]

/-- Lookup after inserting at the same path. -/
theorem fsLookup_fsInsert_self (fs : FS) (p : String) (e : FsEntry) :
    fsLookup (fsInsert fs p e) p = some e := by
  simp [fsInsert, fsLookup]

/-- Lookup elsewhere is unaffected by an insert. -/
theorem fsLookup_fsInsert_ne (fs : FS) (p q : String) (e : FsEntry)
    (h : p ≠ q) :
    fsLookup (fsInsert fs q e) p = fsLookup fs p := by
  have : ¬ q = p := fun he => h he.symm
  simp only [fsInsert, fsLookup, this, if_false]
  exact fsLookup_fsErase_ne fs p q h

/-- Lookup at the re-moded path. -/
theorem fsLookup_fsSetMode_self (fs : FS) (p : String) (m : Nat) :
    fsLookup (fsSetMode fs p m) p =
      (fsLookup fs p).map (fun e => setEntryMode e m) := by
  induction fs with
  | nil => rfl
  | cons kv rest ih =>
    by_cases hk : kv.1 = p <;> simp [fsSetMode, fsLookup, hk, ih]

/-- Lookup elsewhere is unaffected by a chmod. -/
theorem fsLookup_fsSetMode_ne (fs : FS) (p q : String) (m : Nat)
    (h : p ≠ q) :
    fsLookup (fsSetMode fs q m) p = fsLookup fs p := by
  induction fs with
  | nil => rfl
  | cons kv rest ih =>
    by_cases hk : kv.1 = q
    · have hkp : ¬ kv.1 = p := fun he => h (he ▸ hk)
      simp [fsSetMode, fsLookup, hk, hkp, ih, Ne.symm h]
    · by_cases hp : kv.1 = p <;> simp [fsSetMode, fsLookup, hk, hp, ih, h]

/-- Everything at or below the erased root is gone. -/
theorem fsLookup_fsEraseTree_under (fs : FS) (root p : String)
    (h : underTree root p = true) :
    fsLookup (fsEraseTree fs root) p = none := by
  induction fs with
  | nil => rfl
  | cons kv rest ih =>
    by_cases hk : underTree root kv.1 = true
    · simp [fsEraseTree, hk, ih]
    · have : ¬ kv.1 = p := fun he => hk (he ▸ h)
      simp [fsEraseTree, fsLookup, hk, this, ih]

/-- Lookup outside the erased subtree is unaffected. -/
theorem fsLookup_fsEraseTree_notUnder (fs : FS) (root p : String)
    (h : underTree root p = false) :
    fsLookup (fsEraseTree fs root) p = fsLookup fs p := by
  induction fs with
  | nil => rfl
  | cons kv rest ih =>
    by_cases hk : underTree root kv.1 = true
    · have : ¬ kv.1 = p := fun he => by rw [he, h] at hk; exact Bool.noConfusion hk
      simp [fsEraseTree, fsLookup, hk, this, ih]
    · by_cases hp : kv.1 = p <;> simp [fsEraseTree, fsLookup, hk, hp, ih, h]

/-- A single mkdir step does not affect other paths. -/
theorem fsLookup_mkdirStep_ne (fs : FS) (p q : String) (h : p ≠ q) :
    fsLookup (mkdirStep fs q) p = fsLookup fs p := by
  unfold mkdirStep
  cases hq : fsLookup fs q with
  | none =>
    show fsLookup (setDirectoryPermissions (fsInsert fs q (FsEntry.dir DIR_MODE)) q) p
      = fsLookup fs p
    rw [setDirectoryPermissions, fsLookup_fsSetMode_ne _ _ _ _ h,
      fsLookup_fsInsert_ne _ _ _ _ h]
  | some e =>
    show fsLookup (setDirectoryPermissions fs q) p = fsLookup fs p
    rw [setDirectoryPermissions, fsLookup_fsSetMode_ne _ _ _ _ h]

/-- The mkdir walk does not affect paths it never touches. -/
theorem fsLookup_mkdirWalk_notMem (parts : List String) :
    ∀ (fs : FS) (cur p : String), p ∉ mkdirWalkTouched cur parts →
    fsLookup (mkdirWalk fs cur parts) p = fsLookup fs p := by
  induction parts with
  | nil => intro fs cur p _; rfl
  | cons part rest ih =>
    intro fs cur p h
    simp only [mkdirWalkTouched, List.mem_cons] at h
    push_neg at h
    rw [mkdirWalk]
    exact (ih _ _ _ h.2).trans (fsLookup_mkdirStep_ne _ _ _ h.1)

/-- `mkdirWithPermissions` does not affect paths outside its touched
set. -/
theorem fsLookup_mkdirWithPermissions_notMem (dirPath baseDir : String)
    (fs : FS) (p : String) (h : p ∉ mkdirTouched dirPath baseDir) :
    fsLookup (mkdirWithPermissions dirPath baseDir fs) p = fsLookup fs p := by
  unfold mkdirWithPermissions
  unfold mkdirTouched at h
  by_cases hc : (pathRelative dirPath baseDir = "" ||
      strStartsWith (pathRelative dirPath baseDir) "..") = true
  · simp only [hc, if_true] at *
    simp only [List.mem_singleton] at h
    exact fsLookup_mkdirStep_ne _ _ _ h
  · simp only [Bool.not_eq_true] at hc
    simp only [hc, Bool.false_eq_true, if_false] at *
    exact fsLookup_mkdirWalk_notMem _ _ _ _ h

/-- String append acts as list append on the character data. -/
theorem strData_append (a b : String) : (a ++ b).data = a.data ++ b.data := rfl

/-- Exhaustive characterisation of the retry loop over its three
attempts. -/
theorem folderRenameAttempt_spec (f : Nat → RenameOutcome) :
    folderRenameAttempt f =
      match f 1 with
      | .success => RetryResult.success 1
      | .failure c1 =>
        if c1 = "EPERM" then
          match f 2 with
          | .success => RetryResult.success 2
          | .failure c2 =>
            if c2 = "EPERM" then
              match f 3 with
              | .success => RetryResult.success 3
              | .failure c3 => RetryResult.thrown 3 c3
            else RetryResult.thrown 2 c2
        else RetryResult.thrown 1 c1 := by
  show renameRetryGo f 1 3 = _
  rcases h1 : f 1 with _ | c1
  · simp [renameRetryGo, h1]
  · by_cases hc1 : c1 = "EPERM"
    · subst hc1
      rcases h2 : f 2 with _ | c2
      · simp [renameRetryGo, h1, h2, maxRetries]
      · by_cases hc2 : c2 = "EPERM"
        · subst hc2
          rcases h3 : f 3 with _ | c3
          · simp [renameRetryGo, h1, h2, h3, maxRetries]
          · simp [renameRetryGo, h1, h2, h3, maxRetries]
        · simp [renameRetryGo, h1, h2, hc2, maxRetries]
    · simp [renameRetryGo, h1, hc1, maxRetries]

/-- The locked-case diagnostic always differs from the generic one: their
eighth characters differ whatever the folder names are. -/
theorem folderRenameDiagnostic_distinguishes (oldPath newName c : String)
    (hc : c ≠ "EPERM") :
    folderRenameDiagnostic oldPath newName "EPERM" ≠
      folderRenameDiagnostic oldPath newName c := by
  unfold folderRenameDiagnostic
  rw [if_pos rfl, if_neg hc]
  intro h
  have h8 := congrArg (fun s : String => s.data.take 8) h
  simp only [strData_append, List.append_assoc] at h8
  rw [List.take_append_of_le_length (by decide),
    List.take_append_of_le_length (by decide)] at h8
  exact absurd h8 (by decide)

/-- C6: a Phase C folder rename is retried up to 3 times (fixed 500 ms
delay between attempts) exactly when the failure code is the lock code
`EPERM`: a non-`EPERM` error escapes on the first attempt, three `EPERM`
failures exhaust the retries, an `EPERM` followed by success succeeds on
the second attempt; the recorded diagnostic distinguishes the locked case
from the generic one, and a failed folder never stops the Phase C loop
from processing the remaining folders. -/
theorem C6_folder_rename_retry (f : Nat → RenameOutcome) :
    maxRetries = 3 ∧
    retryDelayMs = 500 ∧
    (folderRenameAttempt f).attemptsUsed ≤ maxRetries ∧
    (∀ c, f 1 = RenameOutcome.failure c → c ≠ "EPERM" →
      folderRenameAttempt f = RetryResult.thrown 1 c) ∧
    (∀ c, f 1 = RenameOutcome.failure "EPERM" →
      f 2 = RenameOutcome.failure "EPERM" → f 3 = RenameOutcome.failure c →
      folderRenameAttempt f = RetryResult.thrown 3 c) ∧
    (f 1 = RenameOutcome.failure "EPERM" → f 2 = RenameOutcome.success →
      folderRenameAttempt f = RetryResult.success 2) ∧
    (∀ oldPath newName c, c ≠ "EPERM" →
      folderRenameDiagnostic oldPath newName "EPERM" ≠
        folderRenameDiagnostic oldPath newName c) ∧
    (∀ sourceBase oracle idx st fr rest,
      phaseCGo sourceBase oracle idx st (fr :: rest) =
        phaseCGo sourceBase oracle (idx + 1)
          (phaseCStep sourceBase (oracle idx) st fr) rest) := by
  refine ⟨rfl, rfl, ?_, ?_, ?_, ?_,
    fun o n c hc => folderRenameDiagnostic_distinguishes o n c hc,
    fun _ _ _ _ _ _ => rfl⟩
  · rw [folderRenameAttempt_spec f]
    rcases h1 : f 1 with _ | c1
    · simp [RetryResult.attemptsUsed, maxRetries]
    · by_cases hc1 : c1 = "EPERM"
      · rcases h2 : f 2 with _ | c2
        · simp [hc1, h2, RetryResult.attemptsUsed, maxRetries]
        · by_cases hc2 : c2 = "EPERM"
          · rcases h3 : f 3 with _ | c3 <;>
              simp [hc1, h2, hc2, h3, RetryResult.attemptsUsed, maxRetries]
          · simp [hc1, h2, hc2, RetryResult.attemptsUsed, maxRetries]
      · simp [hc1, RetryResult.attemptsUsed, maxRetries]
  · intro c h1 hc
    rw [folderRenameAttempt_spec f, h1]
    simp [hc]
  · intro c h1 h2 h3
    rw [folderRenameAttempt_spec f, h1, h2, h3]
    simp
  · intro h1 h2
    rw [folderRenameAttempt_spec f, h1, h2]
    simp

/-- Witness for the retry theorem: the all-`EPERM` oracle exhausts the
three attempts, and a first-attempt `ENOENT` escapes at once. -/
theorem C6_witness :
    folderRenameAttempt (fun _ => RenameOutcome.failure "EPERM") =
      RetryResult.thrown 3 "EPERM" ∧
    folderRenameAttempt (fun _ => RenameOutcome.failure "ENOENT") =
      RetryResult.thrown 1 "ENOENT" := by
  constructor
  · exact (C6_folder_rename_retry (fun _ => RenameOutcome.failure "EPERM")).2.2.2.2.1
      "EPERM" rfl rfl rfl
  · exact (C6_folder_rename_retry (fun _ => RenameOutcome.failure "ENOENT")).2.2.2.1
      "ENOENT" rfl (by decide)

/-- C1 (amended): a rename item whose computed destination equals its
current path reports instant completion — a `file_progress` event with
`bytesCopied = bytesTotal =` the stat size and `bytesPerSecond = 0`, the
item counted completed, and no filesystem mutation — when the overwrite
flag is `true`; with `overwrite = false` the destination-exists check
fires first and the item is instead recorded failed with an
"Already exists" diagnostic (see the counterexample), still with no
filesystem mutation. -/
theorem C1_rename_to_self_instant (ctx : JobCtx) (i total : Nat)
    (file : FileRename) (env : ItemEnv) (st : LoopState)
    (sourceFull : String) (entry : FsEntry)
    (hop : ctx.operation = Operation.rename)
    (hover : ctx.overwrite = true)
    (hval : env.validateResult = some sourceFull)
    (hstat : fsLookup st.fs sourceFull = some entry)
    (hdest : computeDest ctx file sourceFull =
      DestResult.ok sourceFull ctx.sourceBase) :
    processItemCore ctx i total file env st =
      { outcome := ItemOutcome.completedItem
        fs := st.fs
        createdDirs := st.createdDirs
        newErrors := []
        events := [instantProgress i total
          (jsPopOr file.destinationPath file.sourcePath) st (entrySize entry)]
        finishedBody := false } := by
  simp [processItemCore, itemBody, dispatchOperation, itemMkdirPhase,
    fsExists, hval, hstat, hdest, hop, hover]

/-- Witness for the rename-to-self theorem at a concrete job. -/
theorem C1_witness :
    processItemCore
      { operation := Operation.rename, overwrite := true
        sourceBase := "/dl", mediaBase := "/media" }
      0 1 ⟨"a.mkv", "a.mkv"⟩
      { validateResult := some "/dl/a.mkv", renameErr := none
        copyFails := false, subRenameFails := fun _ => false }
      (initialState
        [("/dl", FsEntry.dir 511), ("/dl/a.mkv", FsEntry.file [1, 2] 438)]) =
      { outcome := ItemOutcome.completedItem
        fs := [("/dl", FsEntry.dir 511), ("/dl/a.mkv", FsEntry.file [1, 2] 438)]
        createdDirs := []
        newErrors := []
        events := [instantProgress 0 1 "a.mkv"
          (initialState
            [("/dl", FsEntry.dir 511), ("/dl/a.mkv", FsEntry.file [1, 2] 438)])
          2]
        finishedBody := false } := by
  have h := C1_rename_to_self_instant
    { operation := Operation.rename, overwrite := true
      sourceBase := "/dl", mediaBase := "/media" }
    0 1 ⟨"a.mkv", "a.mkv"⟩
    { validateResult := some "/dl/a.mkv", renameErr := none
      copyFails := false, subRenameFails := fun _ => false }
    (initialState
      [("/dl", FsEntry.dir 511), ("/dl/a.mkv", FsEntry.file [1, 2] 438)])
    "/dl/a.mkv" (FsEntry.file [1, 2] 438)
    rfl rfl rfl (by decide) (by decide)
  exact h.trans (by decide)

/-- The destination-directory creation step does not affect paths outside
its touched set. -/
theorem fsLookup_itemMkdirPhase_notMem (ctx : JobCtx)
    (destFull destBase : String) (fs : FS) (createdDirs : List String)
    (p : String) (h : p ∉ itemMkdirTouched ctx destFull destBase createdDirs) :
    fsLookup (itemMkdirPhase ctx destFull destBase fs createdDirs).1 p =
      fsLookup fs p := by
  unfold itemMkdirPhase
  unfold itemMkdirTouched at h
  by_cases hop : ctx.operation ≠ Operation.rename
  · rw [if_pos hop]
    rw [if_pos hop] at h
    by_cases hmem : createdDirs.contains (pdirname destFull) = true
    · rw [if_pos hmem]
    · rw [if_neg hmem]
      rw [if_neg hmem] at h
      exact fsLookup_mkdirWithPermissions_notMem _ _ _ _ h
  · rw [if_neg hop]

/-- C7: an item whose destination already exists, with `overwrite =
false`, is recorded failed with an "Already exists" diagnostic and no
`file_progress` event; the entries at the source path and at the existing
destination path are untouched (only the destination's parent-directory
chain may have been materialised beforehand), and the loop proceeds to
the remaining items. -/
theorem C7_conflict_policy (ctx : JobCtx) (i total : Nat) (file : FileRename)
    (env : ItemEnv) (st : LoopState) (sourceFull destFull destBase : String)
    (entry : FsEntry)
    (hval : env.validateResult = some sourceFull)
    (hstat : fsLookup st.fs sourceFull = some entry)
    (hdest : computeDest ctx file sourceFull = DestResult.ok destFull destBase)
    (hover : ctx.overwrite = false)
    (hexists : fsExists st.fs destFull = true)
    (hsrcT : sourceFull ∉ itemMkdirTouched ctx destFull destBase st.createdDirs)
    (hdstT : destFull ∉ itemMkdirTouched ctx destFull destBase st.createdDirs) :
    (processItemCore ctx i total file env st).outcome = ItemOutcome.failedItem ∧
    (processItemCore ctx i total file env st).newErrors =
      ["Already exists: " ++ popSlash file.destinationPath] ∧
    (processItemCore ctx i total file env st).events = [] ∧
    fsLookup (processItemCore ctx i total file env st).fs sourceFull =
      fsLookup st.fs sourceFull ∧
    fsLookup (processItemCore ctx i total file env st).fs destFull =
      fsLookup st.fs destFull ∧
    (∀ rest st2, runLoopGo ctx total (fun _ => env) i (file :: rest) st2 =
      runLoopGo ctx total (fun _ => env) (i + 1) rest
        (processItem ctx i total file env st2)) := by
  have hfsSrc := fsLookup_itemMkdirPhase_notMem ctx destFull destBase st.fs
    st.createdDirs sourceFull hsrcT
  have hfsDst := fsLookup_itemMkdirPhase_notMem ctx destFull destBase st.fs
    st.createdDirs destFull hdstT
  have hex1 : fsExists
      (itemMkdirPhase ctx destFull destBase st.fs st.createdDirs).1 destFull
      = true := by
    rw [fsExists, hfsDst]; exact hexists
  refine ⟨?_, ?_, ?_, ?_, ?_, fun _ _ => rfl⟩ <;>
    simp [processItemCore, hval, hstat, hdest, hover, hex1, hfsSrc, hfsDst]

/-- Witness for the conflict-policy theorem: a copy whose destination
already exists under the media base. -/
theorem C7_witness :
    (processItemCore
      { operation := Operation.copy, overwrite := false
        sourceBase := "/dl", mediaBase := "/media" }
      0 1 ⟨"x/a.bin", "out/a.bin"⟩
      { validateResult := some "/dl/x/a.bin", renameErr := none
        copyFails := false, subRenameFails := fun _ => false }
      (initialState
        [("/dl/x/a.bin", FsEntry.file [7] 438), ("/media", FsEntry.dir 511),
         ("/media/out", FsEntry.dir 511),
         ("/media/out/a.bin", FsEntry.file [9] 438)])).outcome =
      ItemOutcome.failedItem ∧
    (processItemCore
      { operation := Operation.copy, overwrite := false
        sourceBase := "/dl", mediaBase := "/media" }
      0 1 ⟨"x/a.bin", "out/a.bin"⟩
      { validateResult := some "/dl/x/a.bin", renameErr := none
        copyFails := false, subRenameFails := fun _ => false }
      (initialState
        [("/dl/x/a.bin", FsEntry.file [7] 438), ("/media", FsEntry.dir 511),
         ("/media/out", FsEntry.dir 511),
         ("/media/out/a.bin", FsEntry.file [9] 438)])).newErrors =
      ["Already exists: a.bin"] ∧
    fsLookup (processItemCore
      { operation := Operation.copy, overwrite := false
        sourceBase := "/dl", mediaBase := "/media" }
      0 1 ⟨"x/a.bin", "out/a.bin"⟩
      { validateResult := some "/dl/x/a.bin", renameErr := none
        copyFails := false, subRenameFails := fun _ => false }
      (initialState
        [("/dl/x/a.bin", FsEntry.file [7] 438), ("/media", FsEntry.dir 511),
         ("/media/out", FsEntry.dir 511),
         ("/media/out/a.bin", FsEntry.file [9] 438)])).fs "/dl/x/a.bin" =
      some (FsEntry.file [7] 438) ∧
    fsLookup (processItemCore
      { operation := Operation.copy, overwrite := false
        sourceBase := "/dl", mediaBase := "/media" }
      0 1 ⟨"x/a.bin", "out/a.bin"⟩
      { validateResult := some "/dl/x/a.bin", renameErr := none
        copyFails := false, subRenameFails := fun _ => false }
      (initialState
        [("/dl/x/a.bin", FsEntry.file [7] 438), ("/media", FsEntry.dir 511),
         ("/media/out", FsEntry.dir 511),
         ("/media/out/a.bin", FsEntry.file [9] 438)])).fs "/media/out/a.bin" =
      some (FsEntry.file [9] 438) := by
  have h := C7_conflict_policy
    { operation := Operation.copy, overwrite := false
      sourceBase := "/dl", mediaBase := "/media" }
    0 1 ⟨"x/a.bin", "out/a.bin"⟩
    { validateResult := some "/dl/x/a.bin", renameErr := none
      copyFails := false, subRenameFails := fun _ => false }
    (initialState
      [("/dl/x/a.bin", FsEntry.file [7] 438), ("/media", FsEntry.dir 511),
       ("/media/out", FsEntry.dir 511),
       ("/media/out/a.bin", FsEntry.file [9] 438)])
    "/dl/x/a.bin" "/media/out/a.bin" "/media" (FsEntry.file [7] 438)
    rfl (by decide) (by decide) rfl (by decide) (by decide) (by decide)
  exact ⟨h.1, by rw [h.2.1]; decide, by rw [h.2.2.2.1]; decide,
    by rw [h.2.2.2.2.1]; decide⟩

/-- Strings with equal character data are equal. -/
theorem strOfData_inj (a b : String) (h : a.data = b.data) : a = b := by
  cases a; cases b; exact congrArg String.mk h

/-- Joining under a fixed nonempty prefix is injective in the second
component. -/
theorem pjoin_right_inj (a b1 b2 : String) (ha : a ≠ "")
    (h : pjoin a b1 = pjoin a b2) : b1 = b2 := by
  unfold pjoin at h
  rw [if_neg ha, if_neg ha] at h
  by_cases h1 : b1 = ""
  · rw [if_pos h1] at h
    by_cases h2 : b2 = ""
    · rw [h1, h2]
    · rw [if_neg h2] at h
      exfalso
      have hlen := congrArg (fun s : String => s.data.length) h
      simp [strData_append] at hlen
  · rw [if_neg h1] at h
    by_cases h2 : b2 = ""
    · rw [if_pos h2] at h
      exfalso
      have hlen := congrArg (fun s : String => s.data.length) h
      simp [strData_append] at hlen
    · rw [if_neg h2] at h
      have hd := congrArg String.data h
      rw [strData_append, strData_append] at hd
      exact strOfData_inj _ _ (List.append_cancel_left hd)

/-- A stored copied file survives the remaining iterations of the
directory-copy fold: later files with the same relative path re-write the
same bytes, and all other writes land elsewhere. -/
theorem fsLookup_copyFold_preserve (destFull mediaBase rel : String)
    (c : List Nat) (hdne : destFull ≠ "") :
    ∀ (L : List (String × List Nat)) (acc : FS),
      (∀ rc ∈ L, pjoin destFull rel ∉
          mkdirTouched (pdirname (pjoin destFull rc.1)) mediaBase ∧
        (rc.1 = rel → rc.2 = c)) →
      fsLookup acc (pjoin destFull rel) = some (FsEntry.file c FILE_MODE) →
      fsLookup (L.foldl (copyFileStep destFull mediaBase) acc)
        (pjoin destFull rel) = some (FsEntry.file c FILE_MODE) := by
  intro L
  induction L with
  | nil => intro acc _ hacc; exact hacc
  | cons rc rest ih =>
    intro acc hL hacc
    rw [List.foldl_cons]
    refine ih _ (fun x hx => hL x (List.mem_cons_of_mem _ hx)) ?_
    have hhead := hL rc (List.mem_cons_self _ _)
    by_cases hr : rc.1 = rel
    · unfold copyFileStep
      rw [hr, setFilePermissions, fsLookup_fsSetMode_self,
        fsLookup_fsInsert_self, hhead.2 hr]
      rfl
    · have hkey : pjoin destFull rel ≠ pjoin destFull rc.1 :=
        fun he => hr (pjoin_right_inj _ _ _ hdne he).symm
      unfold copyFileStep
      rw [setFilePermissions, fsLookup_fsSetMode_ne _ _ _ _ hkey,
        fsLookup_fsInsert_ne _ _ _ _ hkey,
        fsLookup_mkdirWithPermissions_notMem _ _ _ _ hhead.1]
      exact hacc

/-- Every file enumerated for a directory copy ends up at its destination
path with its original bytes and `FILE_MODE`, provided the destination
paths of the listed files stay clear of each other's directory chains and
files sharing a relative path carry the same bytes. -/
theorem fsLookup_copyFold_mem (destFull mediaBase rel : String)
    (c : List Nat) (hdne : destFull ≠ "") :
    ∀ (L : List (String × List Nat)) (acc : FS),
      (rel, c) ∈ L →
      (∀ rc ∈ L, pjoin destFull rel ∉
          mkdirTouched (pdirname (pjoin destFull rc.1)) mediaBase ∧
        (rc.1 = rel → rc.2 = c)) →
      fsLookup (L.foldl (copyFileStep destFull mediaBase) acc)
        (pjoin destFull rel) = some (FsEntry.file c FILE_MODE) := by
  intro L
  induction L with
  | nil => intro acc hmem _; exact absurd hmem (List.not_mem_nil _)
  | cons rc rest ih =>
    intro acc hmem hL
    rw [List.foldl_cons]
    by_cases hr : rc.1 = rel
    · refine fsLookup_copyFold_preserve destFull mediaBase rel c hdne rest _
        (fun x hx => hL x (List.mem_cons_of_mem _ hx)) ?_
      have hc2 : rc.2 = c := (hL rc (List.mem_cons_self _ _)).2 hr
      unfold copyFileStep
      rw [hr, setFilePermissions, fsLookup_fsSetMode_self,
        fsLookup_fsInsert_self, hc2]
      rfl
    · have hmem2 : (rel, c) ∈ rest := by
        rcases List.mem_cons.mp hmem with he | hm
        · exact absurd (by rw [← he] : rc.1 = rel) hr
        · exact hm
      exact ih _ hmem2 (fun x hx => hL x (List.mem_cons_of_mem _ hx))

/-- C3: for a move item whose atomic rename fails with any error
whatsoever (the error `e` is arbitrary and never inspected), the body
falls back to the streaming copy followed by deleting the source: for a
file, afterwards the source path no longer exists, the destination holds
byte-for-byte the original content, and its mode is the configured
`FILE_MODE`; for a directory, the whole source subtree is recursively
removed and every file of the source tree reappears under the
destination at its relative path with its original bytes and
`FILE_MODE`. -/
theorem C3_move_fallback (ctx : JobCtx) (i total : Nat) (file : FileRename)
    (env : ItemEnv) (st : LoopState) (sourceFull destFull : String)
    (content : List Nat) (m dm : Nat) (e : String)
    (fs1 : FS) (dirs1 : List String)
    (hop : ctx.operation = Operation.move)
    (hren : env.renameErr = some e)
    (hcopy : env.copyFails = false)
    (hne : sourceFull ≠ destFull) :
    ((itemBody ctx i total file env st sourceFull destFull
        (FsEntry.file content m) fs1 dirs1).outcome =
          ItemOutcome.completedItem ∧
      fsLookup (itemBody ctx i total file env st sourceFull destFull
        (FsEntry.file content m) fs1 dirs1).fs sourceFull = none ∧
      fsLookup (itemBody ctx i total file env st sourceFull destFull
        (FsEntry.file content m) fs1 dirs1).fs destFull =
          some (FsEntry.file content FILE_MODE)) ∧
    ((itemBody ctx i total file env st sourceFull destFull
        (FsEntry.dir dm) fs1 dirs1).outcome = ItemOutcome.completedItem ∧
      (∀ p, underTree sourceFull p = true →
        fsLookup (itemBody ctx i total file env st sourceFull destFull
          (FsEntry.dir dm) fs1 dirs1).fs p = none) ∧
      (∀ rel c,
        (rel, c) ∈ filesUnder
          (if ctx.overwrite then fsEraseTree fs1 destFull else fs1)
          sourceFull →
        (∀ rc ∈ filesUnder
            (if ctx.overwrite then fsEraseTree fs1 destFull else fs1)
            sourceFull,
          pjoin destFull rel ∉
            mkdirTouched (pdirname (pjoin destFull rc.1)) ctx.mediaBase ∧
          (rc.1 = rel → rc.2 = c)) →
        underTree sourceFull (pjoin destFull rel) = false →
        destFull ≠ "" →
        fsLookup (itemBody ctx i total file env st sourceFull destFull
          (FsEntry.dir dm) fs1 dirs1).fs (pjoin destFull rel) =
            some (FsEntry.file c FILE_MODE))) := by
  have hfileStep : itemBody ctx i total file env st sourceFull destFull
      (FsEntry.file content m) fs1 dirs1 =
      { outcome := ItemOutcome.completedItem
        fs := setFilePermissions
          (fsErase
            (fsInsert (if ctx.overwrite then fsEraseTree fs1 destFull else fs1)
              destFull (FsEntry.file content defaultWriteMode))
            sourceFull)
          destFull
        createdDirs := dirs1, newErrors := [], events := []
        finishedBody := true } := by
    simp [itemBody, dispatchOperation, fallbackCopy, hop, hren, hcopy, hne,
      entryIsDir]
  have hdirStep : itemBody ctx i total file env st sourceFull destFull
      (FsEntry.dir dm) fs1 dirs1 =
      { outcome := ItemOutcome.completedItem
        fs := fsEraseTree
          (copyDirectoryWithProgress
            (if ctx.overwrite then fsEraseTree fs1 destFull else fs1)
            sourceFull destFull ctx.mediaBase)
          sourceFull
        createdDirs := dirs1, newErrors := [], events := []
        finishedBody := true } := by
    simp [itemBody, dispatchOperation, fallbackCopy, hop, hren, hcopy, hne,
      entryIsDir]
  refine ⟨⟨?_, ?_, ?_⟩, ?_, ?_, ?_⟩
  · rw [hfileStep]
  · rw [hfileStep]
    show fsLookup (setFilePermissions _ destFull) sourceFull = none
    rw [setFilePermissions, fsLookup_fsSetMode_ne _ _ _ _ hne,
      fsLookup_fsErase_self]
  · rw [hfileStep]
    show fsLookup (setFilePermissions _ destFull) destFull =
      some (FsEntry.file content FILE_MODE)
    rw [setFilePermissions, fsLookup_fsSetMode_self,
      fsLookup_fsErase_ne _ _ _ (Ne.symm hne), fsLookup_fsInsert_self]
    rfl
  · rw [hdirStep]
  · intro p hp
    rw [hdirStep]
    exact fsLookup_fsEraseTree_under _ _ _ hp
  · intro rel c hmem hL hnu hdne
    rw [hdirStep]
    show fsLookup (fsEraseTree (copyDirectoryWithProgress _ _ _ _) sourceFull)
      (pjoin destFull rel) = some (FsEntry.file c FILE_MODE)
    rw [fsLookup_fsEraseTree_notUnder _ _ _ hnu]
    unfold copyDirectoryWithProgress
    exact fsLookup_copyFold_mem destFull ctx.mediaBase rel c hdne _ _ hmem hL

/-- Witness for the move-fallback theorem: a cross-device move of a small
file, and a cross-device move of a directory tree holding a video and a
nested subtitle, both renames failing with `EXDEV`. -/
theorem C3_witness :
    fsLookup (itemBody
      { operation := Operation.move, overwrite := false
        sourceBase := "/dl", mediaBase := "/media" }
      0 1 ⟨"a.bin", "out/a.bin"⟩
      { validateResult := some "/dl/a.bin", renameErr := some "EXDEV"
        copyFails := false, subRenameFails := fun _ => false }
      (initialState [])
      "/dl/a.bin" "/media/out/a.bin" (FsEntry.file [1, 2, 3] 438)
      [("/dl/a.bin", FsEntry.file [1, 2, 3] 438), ("/media/out", FsEntry.dir 511)]
      ["/media/out"]).fs "/dl/a.bin" = none ∧
    fsLookup (itemBody
      { operation := Operation.move, overwrite := false
        sourceBase := "/dl", mediaBase := "/media" }
      0 1 ⟨"a.bin", "out/a.bin"⟩
      { validateResult := some "/dl/a.bin", renameErr := some "EXDEV"
        copyFails := false, subRenameFails := fun _ => false }
      (initialState [])
      "/dl/a.bin" "/media/out/a.bin" (FsEntry.file [1, 2, 3] 438)
      [("/dl/a.bin", FsEntry.file [1, 2, 3] 438), ("/media/out", FsEntry.dir 511)]
      ["/media/out"]).fs "/media/out/a.bin" =
      some (FsEntry.file [1, 2, 3] FILE_MODE) ∧
    fsLookup (itemBody
      { operation := Operation.move, overwrite := false
        sourceBase := "/dl", mediaBase := "/media" }
      0 1 ⟨"show", "lib/show"⟩
      { validateResult := some "/dl/show", renameErr := some "EXDEV"
        copyFails := false, subRenameFails := fun _ => false }
      (initialState [])
      "/dl/show" "/media/lib/show" (FsEntry.dir 493)
      [("/dl/show", FsEntry.dir 493),
       ("/dl/show/a.mkv", FsEntry.file [1, 2] 438),
       ("/dl/show/Sub/b.srt", FsEntry.file [3] 438),
       ("/media", FsEntry.dir 511), ("/media/lib", FsEntry.dir 511)]
      []).fs "/media/lib/show/a.mkv" = some (FsEntry.file [1, 2] FILE_MODE) ∧
    fsLookup (itemBody
      { operation := Operation.move, overwrite := false
        sourceBase := "/dl", mediaBase := "/media" }
      0 1 ⟨"show", "lib/show"⟩
      { validateResult := some "/dl/show", renameErr := some "EXDEV"
        copyFails := false, subRenameFails := fun _ => false }
      (initialState [])
      "/dl/show" "/media/lib/show" (FsEntry.dir 493)
      [("/dl/show", FsEntry.dir 493),
       ("/dl/show/a.mkv", FsEntry.file [1, 2] 438),
       ("/dl/show/Sub/b.srt", FsEntry.file [3] 438),
       ("/media", FsEntry.dir 511), ("/media/lib", FsEntry.dir 511)]
      []).fs "/media/lib/show/Sub/b.srt" = some (FsEntry.file [3] FILE_MODE) ∧
    fsLookup (itemBody
      { operation := Operation.move, overwrite := false
        sourceBase := "/dl", mediaBase := "/media" }
      0 1 ⟨"show", "lib/show"⟩
      { validateResult := some "/dl/show", renameErr := some "EXDEV"
        copyFails := false, subRenameFails := fun _ => false }
      (initialState [])
      "/dl/show" "/media/lib/show" (FsEntry.dir 493)
      [("/dl/show", FsEntry.dir 493),
       ("/dl/show/a.mkv", FsEntry.file [1, 2] 438),
       ("/dl/show/Sub/b.srt", FsEntry.file [3] 438),
       ("/media", FsEntry.dir 511), ("/media/lib", FsEntry.dir 511)]
      []).fs "/dl/show/a.mkv" = none := by
  have hfile := C3_move_fallback
    { operation := Operation.move, overwrite := false
      sourceBase := "/dl", mediaBase := "/media" }
    0 1 ⟨"a.bin", "out/a.bin"⟩
    { validateResult := some "/dl/a.bin", renameErr := some "EXDEV"
      copyFails := false, subRenameFails := fun _ => false }
    (initialState [])
    "/dl/a.bin" "/media/out/a.bin" [1, 2, 3] 438 511 "EXDEV"
    [("/dl/a.bin", FsEntry.file [1, 2, 3] 438), ("/media/out", FsEntry.dir 511)]
    ["/media/out"]
    rfl rfl rfl (by decide)
  have hdir := C3_move_fallback
    { operation := Operation.move, overwrite := false
      sourceBase := "/dl", mediaBase := "/media" }
    0 1 ⟨"show", "lib/show"⟩
    { validateResult := some "/dl/show", renameErr := some "EXDEV"
      copyFails := false, subRenameFails := fun _ => false }
    (initialState [])
    "/dl/show" "/media/lib/show" [9] 438 493 "EXDEV"
    [("/dl/show", FsEntry.dir 493),
     ("/dl/show/a.mkv", FsEntry.file [1, 2] 438),
     ("/dl/show/Sub/b.srt", FsEntry.file [3] 438),
     ("/media", FsEntry.dir 511), ("/media/lib", FsEntry.dir 511)]
    []
    rfl rfl rfl (by decide)
  refine ⟨hfile.1.2.1, hfile.1.2.2, ?_, ?_, ?_⟩
  · exact hdir.2.2.2 "a.mkv" [1, 2] (by decide) (by decide) (by decide)
      (by decide)
  · exact hdir.2.2.2 "Sub/b.srt" [3] (by decide) (by decide) (by decide)
      (by decide)
  · exact hdir.2.2.1 "/dl/show/a.mkv" (by decide)

/-- Each item increments exactly one of the two counters. -/
theorem processItem_counters (ctx : JobCtx) (i total : Nat)
    (file : FileRename) (env : ItemEnv) (st : LoopState) :
    (processItem ctx i total file env st).completed +
      (processItem ctx i total file env st).failed =
      st.completed + st.failed + 1 := by
  unfold processItem applyOutcome
  cases h : (processItemCore ctx i total file env st).outcome <;>
    simp [h] <;> omega

/-- The loop invariant: after the loop, the counters sum the number of
processed items on top of the starting state. -/
theorem runLoopGo_counters (ctx : JobCtx) (total : Nat) (envs : Nat → ItemEnv)
    (files : List FileRename) :
    ∀ (i : Nat) (st : LoopState),
      (runLoopGo ctx total envs i files st).completed +
        (runLoopGo ctx total envs i files st).failed =
        st.completed + st.failed + files.length := by
  induction files with
  | nil => intro i st; rfl
  | cons f rest ih =>
    intro i st
    rw [runLoopGo]
    have h1 := ih (i + 1) (processItem ctx i total f (envs i) st)
    have h2 := processItem_counters ctx i total f (envs i) st
    rw [h1, h2, List.length_cons]
    omega

/-- C8: after the item loop, `completed` plus the file-level `failed`
equals the number of items, and the terminal `complete` event reports
`current = total =` the item count, `completed` from the loop, and
`failed` equal to the file-level failures plus the folder-rename error
count. -/
theorem C8_counter_invariant (req : JobRequest) (sourceBase mediaBase : String)
    (envs : Nat → ItemEnv) (renameFails : String → String → Bool)
    (attemptResult : Nat → Nat → RenameOutcome) (fs : FS) :
    let J := runJob req sourceBase mediaBase envs renameFails attemptResult fs
    J.itemsState.completed + J.itemsState.failed = req.files.length ∧
    J.completeEv.current = req.files.length ∧
    J.completeEv.total = req.files.length ∧
    J.completeEv.completed = J.itemsState.completed ∧
    J.completeEv.failed =
      J.itemsState.failed + J.phaseCState.folderRenameErrors.length := by
  refine ⟨?_, rfl, rfl, rfl, rfl⟩
  have h := runLoopGo_counters
    { operation := req.operation, overwrite := req.overwrite
      sourceBase := sourceBase, mediaBase := mediaBase }
    req.files.length envs req.files 0 (initialState fs)
  simpa [runLoop, initialState] using h

/-- The character split never returns an empty list of segments. -/
theorem splitCharsAux_ne_nil (sep : Char) (l : List Char) :
    ∀ acc, splitCharsAux sep l acc ≠ [] := by
  induction l with
  | nil => intro acc; simp [splitCharsAux]
  | cons c rest ih =>
    intro acc
    rw [splitCharsAux]
    by_cases h : c = sep <;> simp [h, ih]

/-- Segments produced by the split do not contain the separator. -/
theorem mem_splitCharsAux_not_mem (sep : Char) (l : List Char) :
    ∀ acc seg, sep ∉ acc → seg ∈ splitCharsAux sep l acc → sep ∉ seg := by
  induction l with
  | nil =>
    intro acc seg hacc hmem
    simp only [splitCharsAux, List.mem_singleton] at hmem
    subst hmem
    simpa using hacc
  | cons c rest ih =>
    intro acc seg hacc hmem
    rw [splitCharsAux] at hmem
    by_cases h : c = sep
    · rw [if_pos h] at hmem
      rcases List.mem_cons.mp hmem with he | hm
      · subst he; simpa using hacc
      · exact ih [] seg (by simp) hm
    · rw [if_neg h] at hmem
      refine ih (c :: acc) seg ?_ hmem
      simp only [List.mem_cons]
      rintro (he | hin)
      · exact h he.symm
      · exact hacc hin

/-- The default-carrying last element of a nonempty list is a member. -/
theorem mem_getLastD {α : Type} (l : List α) :
    ∀ (d : α), l ≠ [] → l.getLastD d ∈ l := by
  induction l with
  | nil => intro d h; exact absurd rfl h
  | cons a rest ih =>
    intro d _
    rw [List.getLastD_cons]
    cases rest with
    | nil => simp [List.getLastD]
    | cons b r => exact List.mem_cons_of_mem a (ih a (by simp))

/-- A basename never contains a separator. -/
theorem pbasename_no_slash (s : String) : '/' ∉ (pbasename s).data := by
  unfold pbasename splitSep
  have hne : (splitCharsAux '/' s.data []).map
      (fun l => (⟨l⟩ : String)) ≠ [] := by
    simpa using splitCharsAux_ne_nil '/' s.data []
  have hmem := mem_getLastD _ "" hne
  rcases List.mem_map.mp hmem with ⟨seg, hseg, heq⟩
  have hns := mem_splitCharsAux_not_mem '/' s.data [] seg (by simp) hseg
  rw [← heq]
  exact hns

/-- Splitting a separator-free character list yields one segment. -/
theorem splitCharsAux_no_sep (sep : Char) (l : List Char) (h : sep ∉ l) :
    ∀ acc, splitCharsAux sep l acc = [acc.reverse ++ l] := by
  induction l with
  | nil => intro acc; simp [splitCharsAux]
  | cons c rest ih =>
    intro acc
    have hc : ¬ c = sep := fun he => h (he ▸ List.mem_cons_self c rest)
    rw [splitCharsAux, if_neg hc,
      ih (fun hm => h (List.mem_cons_of_mem c hm)) (c :: acc)]
    simp

/-- The basename of a separator-free string is the string itself. -/
theorem pbasename_of_no_slash (b : String) (h : '/' ∉ b.data) :
    pbasename b = b := by
  unfold pbasename splitSep
  rw [splitCharsAux_no_sep '/' b.data h []]
  simp [List.getLastD]

/-- The split distributes over an occurrence of the separator. -/
theorem splitCharsAux_append_sep (sep : Char) (xs : List Char) :
    ∀ (acc ys : List Char),
      splitCharsAux sep (xs ++ sep :: ys) acc =
        splitCharsAux sep xs acc ++ splitCharsAux sep ys [] := by
  induction xs with
  | nil =>
    intro acc ys
    simp [splitCharsAux]
  | cons c rest ih =>
    intro acc ys
    by_cases h : c = sep
    · simp only [List.cons_append, splitCharsAux, if_pos h, List.append_eq,
        ih, List.cons_append]
    · simp only [List.cons_append, splitCharsAux, if_neg h, List.append_eq, ih]

/-- The last element of an appended list with a nonempty right part. -/
theorem getLastD_append_right {α : Type} (l2 : List α) (h : l2 ≠ []) :
    ∀ (l1 : List α) (d : α), (l1 ++ l2).getLastD d = l2.getLastD d := by
  intro l1 d
  rw [List.getLastD_eq_getLast?, List.getLastD_eq_getLast?,
    List.getLast?_append]
  cases l2 with
  | nil => exact absurd rfl h
  | cons b r =>
    cases hx : (b :: r).getLast? with
    | none =>
      rw [List.getLast?_eq_getLast _ (by simp)] at hx
      exact Option.noConfusion hx
    | some x => rfl

/-- The basename after appending a separator and a tail. -/
theorem pbasename_append_slash (a b : String) :
    pbasename (a ++ "/" ++ b) = pbasename b := by
  unfold pbasename splitSep
  have hdata : (a ++ "/" ++ b).data = a.data ++ '/' :: b.data := by
    rw [strData_append, strData_append]
    simp
  rw [hdata, splitCharsAux_append_sep '/' a.data [] b.data, List.map_append]
  exact getLastD_append_right _
    (by simpa using splitCharsAux_ne_nil '/' b.data []) _ _

/-- The basename of a join is the basename of its nonempty second
component. -/
theorem pbasename_pjoin (t b : String) (hb : b ≠ "") :
    pbasename (pjoin t b) = pbasename b := by
  unfold pjoin
  by_cases ht : t = ""
  · rw [if_pos ht]
  · rw [if_neg ht, if_neg hb]
    exact pbasename_append_slash t b

/-- Joining a folder with an existing basename preserves that basename. -/
theorem pbasename_pjoin_pbasename (t c : String) (h : pbasename c ≠ "") :
    pbasename (pjoin t (pbasename c)) = pbasename c := by
  rw [pbasename_pjoin t _ h, pbasename_of_no_slash _ (pbasename_no_slash c)]

/-- Folding a step that preserves a property of the recorded moves
preserves it across a whole list. -/
theorem foldl_moves_preserve {β : Type} (P : String × String → Prop)
    (f : PhaseABState → β → PhaseABState)
    (hf : ∀ st x, (∀ mv ∈ st.moves, P mv) → ∀ mv ∈ (f st x).moves, P mv)
    (l : List β) :
    ∀ st, (∀ mv ∈ st.moves, P mv) → ∀ mv ∈ (l.foldl f st).moves, P mv := by
  induction l with
  | nil => intro st h; exact h
  | cons x rest ih => intro st h; exact ih _ (hf st x h)

/-- Each companion move destination is the target folder joined with the
companion's own basename. -/
theorem moveCompanionStep_moves (rf : String → String → Bool)
    (target : String) (st : PhaseABState) (subPath : String)
    (h : ∀ mv ∈ st.moves, intoFolderMove mv) :
    ∀ mv ∈ (moveCompanionStep rf target st subPath).moves, intoFolderMove mv := by
  intro mv hmv
  have hmoves : (moveCompanionStep rf target st subPath).moves =
      st.moves ++ [(subPath, pjoin target (pbasename subPath))] := by
    unfold moveCompanionStep
    by_cases hb : rf subPath (pjoin target (pbasename subPath)) = true <;>
      simp [hb]
  rw [hmoves] at hmv
  rcases List.mem_append.mp hmv with hold | hnew
  · exact h mv hold
  · rw [List.mem_singleton] at hnew
    exact ⟨target, subPath, hnew⟩

/-- Each move of the shared file-into-folder body keeps the moved file's
basename: its destination is the target folder joined with that
basename, and so are its companions' destinations. -/
theorem moveIntoFolderStep_moves (rf : String → String → Bool)
    (logTag sourceBase target : String) (st : PhaseABState)
    (filePath newFileName : String)
    (h : ∀ mv ∈ st.moves, intoFolderMove mv) :
    ∀ mv ∈ (moveIntoFolderStep rf logTag sourceBase target st filePath
      newFileName).moves, intoFolderMove mv := by
  unfold moveIntoFolderStep
  cases hloc : locateFileFor st.fs sourceBase filePath newFileName with
  | none => exact h
  | some pc =>
    have hext : ∀ mv ∈ (st.moves ++
        [(pc.2, pjoin target (pbasename pc.2))]), intoFolderMove mv := by
      intro mv hmv
      rcases List.mem_append.mp hmv with hold | hnew
      · exact h mv hold
      · rw [List.mem_singleton] at hnew
        exact ⟨target, pc.2, hnew⟩
    show ∀ mv ∈ (moveIntoFolderAct rf logTag target st pc.1 pc.2).moves,
      intoFolderMove mv
    simp only [moveIntoFolderAct]
    by_cases hp : presolve pc.1 = presolve target
    · rw [if_pos hp]; exact h
    · rw [if_neg hp]
      by_cases hrf : rf pc.2 (pjoin target (pbasename pc.2)) = true
      · rw [if_pos hrf]; exact hext
      · rw [if_neg hrf]
        by_cases hv : VIDEO_EXTENSIONS.contains
            (strToLower (pextname pc.2)) = true
        · rw [if_pos hv]
          exact foldl_moves_preserve intoFolderMove _
            (fun st2 x h2 => moveCompanionStep_moves rf target st2 x h2) _ _ hext
        · rw [if_neg hv]; exact hext

/-- Phase A group processing preserves the move shape. -/
theorem phaseAGroupStep_moves (rf : String → String → Bool)
    (sourceBase : String) (st : PhaseABState)
    (group : String × List FolderCreate)
    (h : ∀ mv ∈ st.moves, intoFolderMove mv) :
    ∀ mv ∈ (phaseAGroupStep rf sourceBase st group).moves,
      intoFolderMove mv := by
  unfold phaseAGroupStep
  split
  · exact h
  · split
    · exact h
    · exact foldl_moves_preserve intoFolderMove _
        (fun st2 x h2 => moveIntoFolderStep_moves rf _ sourceBase _ st2
          x.filePath x.newFileName h2) _ _ h

/-- Every move recorded by Phase A lands at a target folder joined with
the moved path's basename. -/
theorem phaseA_moves (rf : String → String → Bool) (sourceBase : String)
    (folderCreates : List FolderCreate) (fs : FS) :
    ∀ mv ∈ (phaseA rf sourceBase folderCreates fs).moves,
      intoFolderMove mv := by
  unfold phaseA
  exact foldl_moves_preserve intoFolderMove _
    (fun st2 x h2 => phaseAGroupStep_moves rf sourceBase st2 x h2) _ _
    (by intro mv hmv; exact absurd hmv (List.not_mem_nil mv))

/-- Phase B group processing preserves the move shape. -/
theorem phaseBGroupStep_moves (rf : String → String → Bool)
    (sourceBase : String) (st : PhaseABState)
    (group : String × List SeasonFolderCreate)
    (h : ∀ mv ∈ st.moves, intoFolderMove mv) :
    ∀ mv ∈ (phaseBGroupStep rf sourceBase st group).moves,
      intoFolderMove mv := by
  unfold phaseBGroupStep
  split
  · exact h
  · split
    · exact h
    · split
      · exact foldl_moves_preserve intoFolderMove _
          (fun st2 x h2 => moveIntoFolderStep_moves rf _ sourceBase _ st2
            x.filePath x.newFileName h2) _ _ h
      · exact h

/-- Every move recorded by Phase B lands at a target folder joined with
the moved path's basename. -/
theorem phaseB_moves (rf : String → String → Bool) (sourceBase : String)
    (seasonFolderCreates : List SeasonFolderCreate) (fs : FS) :
    ∀ mv ∈ (phaseB rf sourceBase seasonFolderCreates fs).moves,
      intoFolderMove mv := by
  unfold phaseB
  exact foldl_moves_preserve intoFolderMove _
    (fun st2 x h2 => phaseBGroupStep_moves rf sourceBase st2 x h2) _ _
    (by intro mv hmv; exact absurd hmv (List.not_mem_nil mv))

/-- C9: every file (and companion subtitle) move performed by the Phase A
and Phase B folder-creation passes sends the file to the created folder
joined with the file's existing basename; in particular the basename is
unchanged, and no suffix-recomputation of companion names takes place. -/
theorem C9_folder_phases_preserve_basename (renameFails : String → String → Bool)
    (sourceBase : String) (folderCreates : List FolderCreate)
    (seasonFolderCreates : List SeasonFolderCreate) (fsA fsB : FS) :
    ∀ mv ∈ (phaseA renameFails sourceBase folderCreates fsA).moves ++
        (phaseB renameFails sourceBase seasonFolderCreates fsB).moves,
      (∃ t, mv.2 = pjoin t (pbasename mv.1)) ∧
      (pbasename mv.1 ≠ "" → pbasename mv.2 = pbasename mv.1) := by
  intro mv hmv
  have hshape : intoFolderMove mv := by
    rcases List.mem_append.mp hmv with hA | hB
    · exact phaseA_moves renameFails sourceBase folderCreates fsA mv hA
    · exact phaseB_moves renameFails sourceBase seasonFolderCreates fsB mv hB
  rcases hshape with ⟨t, c, hm⟩
  subst hm
  exact ⟨⟨t, rfl⟩, fun hne => pbasename_pjoin_pbasename t c hne⟩

/-- Witness for the basename-preservation theorem: the Phase A move of
`file.mkv` into `NewFolder` keeps the basename `file.mkv`. -/
theorem C9_witness :
    (∃ t, "/dl/dir/NewFolder/file.mkv" =
      pjoin t (pbasename "/dl/dir/file.mkv")) ∧
    (pbasename "/dl/dir/file.mkv" ≠ "" →
      pbasename "/dl/dir/NewFolder/file.mkv" =
        pbasename "/dl/dir/file.mkv") := by
  have h := C9_folder_phases_preserve_basename (fun _ _ => false) "/dl"
    [⟨"dir/file.mkv", "file.mkv", "NewFolder", none⟩] []
    [("/dl", FsEntry.dir 511), ("/dl/dir", FsEntry.dir 511),
     ("/dl/dir/file.mkv", FsEntry.file [5] 438)]
    []
    ("/dl/dir/file.mkv", "/dl/dir/NewFolder/file.mkv")
    (by decide)
  exact h
